import Mathlib

/-! IO-PMP setup and configuration library (`src/iopmp.c`)

A shallow embedding of `iopmp.c` and the properties of its register programming.

Conventions of the embedding.

* `uintptr_t` is the 64-bit unsigned type of the RV64 target: a natural number below `2^64`,
  every operation that can leave that range is reduced modulo `2^64`.
* `int` is the 32-bit signed type: an integer, results reduced to `[-2^31, 2^31)` (the
  documented behaviour of GCC for conversions and for signed left shifts).
* A shift whose count reaches the width of its (promoted) left operand has no meaning in ISO C.
  For the `int` shift of the byte mask the embedding follows the 32-bit shift instruction
  (`sllw`, count modulo 32). For `1UL << g` with `g >= 64` the result is a parameter `wide` of
  the embedding, so that nothing proved for every `wide` rests on a choice.
* The memory-mapped registers are a map from physical address to the word the device holds.
  A device is a function `hw a v` giving the word register `a` latches when `v` is written to
  it; `plain` is a device that stores what is written.
* Every `volatile` store is appended to the write trace, every `sbi_printf` to the console.
-/

namespace Iopmp

/-! ## Machine integers -/

/-- Conversion of a signed C integer to `uintptr_t`: the value modulo `2^64`
(sign extension of a negative `int`). -/
def toU64 (x : Int) : Nat := (x % 2 ^ 64).toNat

/-- Conversion of an integer value to `int`: reduction modulo `2^32` into `[-2^31, 2^31)`. -/
def toInt32 (x : Int) : Int := (x + 2 ^ 31) % 2 ^ 32 - 2 ^ 31

/-- Bitwise complement `~x` of a `uintptr_t`. -/
def not64 (x : Nat) : Nat := 2 ^ 64 - 1 - x % 2 ^ 64

/-- Left shift `x << n` of a `uintptr_t` (RV64 `sll`: count modulo 64, result modulo `2^64`). -/
def shl64 (x n : Nat) : Nat := (x <<< (n % 64)) % 2 ^ 64

/-- Left shift `a << n` whose left operand has type `int`: the result has type `int`
(RV64 `sllw`: count modulo 32, 32-bit result, sign-extended when widened). -/
def shl_int (a : Int) (n : Nat) : Int := toInt32 (a * 2 ^ (n % 32))

/-- The value of `1UL << g`: `2^g` for `g < 64`. For `g >= 64` the shift has no meaning in
ISO C and the result is whatever the build produces; it is the parameter `wide g`, reduced to
64 bits. -/
def shl_ul (wide : Nat → Nat) (g : Nat) : Nat :=
  if g < 64 then shl64 1 g else wide g % 2 ^ 64

/-- A build in which an over-wide `1UL << g` takes the count modulo 64 (the RV64 `sll`
instruction applied as it is). -/
def wide_sll : Nat → Nat := fun g => shl64 1 g

/-- A build in which an over-wide `1UL << g` gives `0` (the shift folded away). -/
def wide_zero : Nat → Nat := fun _ => 0

/-- Subtraction `a - b` of two `uintptr_t`. -/
def sub64 (a b : Nat) : Nat := (a + (2 ^ 64 - b % 2 ^ 64)) % 2 ^ 64

/-! ## Constants -/

def IOPMP_BASE : Nat := 0x50010000
def IOPMP_ADDR_BASE : Nat := IOPMP_BASE + 0x0
def IOPMP_CFG_BASE : Nat := IOPMP_BASE + 0x80
def IOPMP_NUM_PMP : Nat := 16

/-- Modelled from the spec: `PMP_R` of `sbi/riscv_encoding.h` (not part of the sources), the
read permission bit of a config byte. -/
def PMP_R : Nat := 0x01
/-- Modelled from the spec: `PMP_W` of `sbi/riscv_encoding.h` (not part of the sources), the
write permission bit of a config byte. -/
def PMP_W : Nat := 0x02
/-- Modelled from the spec: `PMP_X` of `sbi/riscv_encoding.h` (not part of the sources), the
execute permission bit of a config byte. -/
def PMP_X : Nat := 0x04
/-- Modelled from the spec: `PMP_A_NA4` of `sbi/riscv_encoding.h` (not part of the sources),
the address-matching mode "naturally aligned four bytes". -/
def PMP_A_NA4 : Nat := 0x10
/-- Modelled from the spec: `PMP_A_NAPOT` of `sbi/riscv_encoding.h` (not part of the sources),
the address-matching mode "naturally aligned power of two". -/
def PMP_A_NAPOT : Nat := 0x18
/-- Modelled from the spec: `PMP_SHIFT` of `sbi/riscv_encoding.h` (not part of the sources),
the fixed shift of the address encoding. -/
def PMP_SHIFT : Nat := 2

/-! ## Data model -/

/-- The region descriptor `iopmpcfg_t` of `iopmp.h`. -/
structure iopmpcfg_t where
  cfg : Nat
  a0 : Nat
  slot : Nat
deriving DecidableEq, Repr

/-- One line written by `sbi_printf`. -/
inductive Diag where
  | addr_failed (i : Nat) (readback : Nat)
  | addr_succeeded (i : Nat)
  | cfg_failed
  | cfg_succeeded
  | granularity (g : Int)
deriving DecidableEq, Repr

/-- A device: `hw a v` is the word register `a` holds after `v` has been written to it. -/
abbrev Device := Nat → Nat → Nat

/-- Registers that store exactly what is written. -/
def plain : Device := fun _ v => v

/-- The state the library acts on: the register file, the global `iopmp_granule`, and the
observable history (stores and printed lines, oldest first). -/
structure State where
  regs : Nat → Nat
  iopmp_granule : Int
  writes : List (Nat × Nat)
  console : List Diag

/-- A volatile store `*a = v`. -/
def write (hw : Device) (a v : Nat) (s : State) : State :=
  { s with regs := fun x => if x = a then hw a v else s.regs x, writes := s.writes ++ [(a, v)] }

/-- A volatile load `*a`. -/
def read (a : Nat) (s : State) : Nat := s.regs a

def sbi_printf (d : Diag) (s : State) : State :=
  { s with console := s.console ++ [d] }

/-! ## `detect_iopmp_granule` -/

/-- The loop `for (uintptr_t i = 1; i; i <<= 1) { if ((ret & i) != 0) break; g++; }`, started
at the given `i` and `g`; the result is the final `g`, `none` when the fuel runs out before the
loop is left. -/
def scan (ret : Nat) : Nat → Nat → Nat → Option Nat
  | 0, _, _ => none
  | fuel + 1, i, g =>
    if i = 0 then some g
    else if ret &&& i ≠ 0 then some g
    else scan ret fuel (shl64 i 1) (g + 1)

def detect_iopmp_granule (wide : Nat → Nat) (hw : Device) (s : State) : Option State :=
  let pmpcfg0 := IOPMP_CFG_BASE
  let pmpaddr0 := IOPMP_ADDR_BASE
  let s := write hw pmpcfg0 0x0 s
  let s := write hw pmpaddr0 0xffffffffffffffff s
  let ret := read pmpaddr0 s
  match scan ret 65 1 2 with
  | none => none
  | some g =>
    let s := { s with iopmp_granule := toInt32 (shl_ul wide g) }
    some (sbi_printf (Diag.granularity s.iopmp_granule) s)

/-! ## `init_iopmp` -/

/-- The body of the address register loop of `init_iopmp` for index `i`. -/
def init_addr_step (hw : Device) (s : State) (i : Nat) : State :=
  let pmpaddr := IOPMP_ADDR_BASE + i * 0x8
  let old_pmpaddr := 0
  let s := write hw pmpaddr 0xffffffffffffffff s
  let mtch := 0x3FFFFFFFFFFFFF &&& toU64 (Int.not ((s.iopmp_granule >>> 2) - 1))
  let s :=
    if read pmpaddr s ≠ mtch then sbi_printf (Diag.addr_failed i (read pmpaddr s)) s
    else sbi_printf (Diag.addr_succeeded i) s
  write hw pmpaddr old_pmpaddr s

/-- The config register check of `init_iopmp`. -/
def init_cfg_check (hw : Device) (s : State) : State :=
  let pmpcfg0 := IOPMP_CFG_BASE
  let pmpcfg1 := IOPMP_CFG_BASE + 0x8
  let old_cfg0 := 0
  let old_cfg1 := 0
  let s := write hw pmpcfg0 0xffffffffffffffff s
  let s := if IOPMP_NUM_PMP > 8 then write hw pmpcfg1 0xffffffffffffffff s else s
  let s :=
    if read pmpcfg0 s ≠ 0xffffffffffffffff ∨
        (IOPMP_NUM_PMP > 8 ∧ read pmpcfg1 s ≠ 0xffffffffffffffff) then
      sbi_printf Diag.cfg_failed s
    else sbi_printf Diag.cfg_succeeded s
  let s := write hw pmpcfg0 old_cfg0 s
  if IOPMP_NUM_PMP > 8 then write hw pmpcfg1 old_cfg1 s else s

def init_iopmp (wide : Nat → Nat) (hw : Device) (s : State) : Option State :=
  (if s.iopmp_granule < 0 then detect_iopmp_granule wide hw s else some s).map fun s =>
    init_cfg_check hw ((List.range IOPMP_NUM_PMP).foldl (init_addr_step hw) s)

/-! ## `set_iopmp` and the constructors over it -/

def set_iopmp (hw : Device) (p : iopmpcfg_t) (s : State) : iopmpcfg_t × State :=
  if p.slot < 0 ∨ p.slot ≥ IOPMP_NUM_PMP then (p, s)
  else
    let pmpcfg := IOPMP_CFG_BASE + (if p.slot < 8 then 0x0 else 0x8)
    let shift := if p.slot ≥ 8 then p.slot - 8 else p.slot
    let mask := toU64 (shl_int 0xff (8 * shift))
    let s := write hw pmpcfg (read pmpcfg s &&& not64 mask) s
    let pmpaddr := IOPMP_ADDR_BASE + 8 * p.slot
    let s := write hw pmpaddr p.a0 s
    let s := write hw pmpcfg ((shl64 p.cfg (8 * shift) &&& mask) ||| (read pmpcfg s &&& not64 mask)) s
    (p, s)

def set_iopmp_napot_access (hw : Device) (base range access slot : Nat) (s : State) :
    iopmpcfg_t × State :=
  let p : iopmpcfg_t :=
    { cfg := access ||| (if range > toU64 s.iopmp_granule then PMP_A_NAPOT else PMP_A_NA4)
      a0 := ((base + sub64 (range / 2) 1) % 2 ^ 64) >>> PMP_SHIFT
      slot := slot }
  set_iopmp hw p s

def set_iopmp_napot (hw : Device) (base range slot : Nat) (s : State) : iopmpcfg_t × State :=
  set_iopmp_napot_access hw base range (PMP_W ||| PMP_R ||| PMP_X) slot s

def set_iopmp_allow_all (hw : Device) (slot : Nat) (s : State) : iopmpcfg_t × State :=
  let p : iopmpcfg_t :=
    { cfg := (PMP_W ||| PMP_R ||| PMP_X) ||| PMP_A_NAPOT
      a0 := 0xFFFFFFFFFFFFFFFF
      slot := slot }
  set_iopmp hw p s

/-! ## Observations -/

/-- Address register `i`. -/
def addr_reg (s : State) (i : Nat) : Nat := read (IOPMP_ADDR_BASE + 8 * i) s

/-- Config word `w` (`0` covers slots 0-7, `1` covers slots 8-15). -/
def cfg_word (s : State) (w : Nat) : Nat := read (IOPMP_CFG_BASE + 8 * w) s

/-- Byte lane `l` of a word. -/
def lane (w l : Nat) : Nat := (w >>> (8 * l)) &&& 0xff

/-- The config byte of slot `i`: lane `i mod 8` of config word `i / 8`. -/
def cfg_byte (s : State) (i : Nat) : Nat := lane (cfg_word s (i / 8)) (i % 8)

/-- A register file holding the given address registers and config words, before any call. -/
def mkState (addr : Nat → Nat) (cfg0 cfg1 : Nat) (granule : Int) : State :=
  { regs := fun a =>
      if a = IOPMP_CFG_BASE then cfg0
      else if a = IOPMP_CFG_BASE + 8 then cfg1
      else if IOPMP_ADDR_BASE ≤ a ∧ a < IOPMP_ADDR_BASE + 8 * IOPMP_NUM_PMP ∧
          (a - IOPMP_ADDR_BASE) % 8 = 0 then addr ((a - IOPMP_ADDR_BASE) / 8)
      else 0
    iopmp_granule := granule
    writes := []
    console := [] }

/-- A simulated unit of address granularity `2^(k+2)`: an address register stores the written
value restricted to its 54 implemented bits with the low `k` bits cleared, a config word
stores what is written. -/
def conforming (k : Nat) : Device := fun a v =>
  if IOPMP_ADDR_BASE ≤ a ∧ a < IOPMP_CFG_BASE then v &&& 0x3FFFFFFFFFFFFF &&& not64 (2 ^ k - 1)
  else v

/-- The number of consecutive one bits of `a` counted from bit 0, among its low `n` bits. -/
def trailing_ones : Nat → Nat → Nat
  | 0, _ => 0
  | n + 1, a => if a % 2 = 1 then trailing_ones n (a / 2) + 1 else 0

/-- Decoding of a NAPOT address register by the standard RISC-V rule, as the specification
words it: the size is `2^(trailing ones + 3)` and the start is the address with its trailing
ones cleared, shifted left by `PMP_SHIFT`. The result is `(start, size)`. -/
def napot_decode_spec (a0 : Nat) : Nat × Nat :=
  (shl64 (a0 &&& not64 (2 ^ trailing_ones 64 a0 - 1)) PMP_SHIFT, 2 ^ (trailing_ones 64 a0 + 3))

/-- The number of consecutive zero bits of `a` counted from bit 0, among its low `n` bits
(`n` when all of them are zero). -/
def trailing_zeros : Nat → Nat → Nat
  | 0, _ => 0
  | n + 1, a => if a % 2 = 0 then trailing_zeros n (a / 2) + 1 else 0

/-- The value of the last store to register `a` in a write trace, `none` when the trace has no
store to `a`. -/
def last_write (a : Nat) : List (Nat × Nat) → Option Nat
  | [] => none
  | w :: ws =>
    match last_write a ws with
    | some v => some v
    | none => if w.1 = a then some w.2 else none

/-- The value `match` that `init_iopmp` compares the read-back of an address register with,
as a function of the granule cache. -/
def expected_readback (granule : Int) : Nat :=
  0x3FFFFFFFFFFFFF &&& toU64 (Int.not ((granule >>> 2) - 1))

/-- The line `init_iopmp` prints for address register `i`, given the granule cache. -/
def addr_line (hw : Device) (granule : Int) (i : Nat) : Diag :=
  if hw (IOPMP_ADDR_BASE + i * 0x8) 0xffffffffffffffff ≠ expected_readback granule then
    Diag.addr_failed i (hw (IOPMP_ADDR_BASE + i * 0x8) 0xffffffffffffffff)
  else Diag.addr_succeeded i

/-- The line `init_iopmp` prints for the config words. -/
def cfg_line (hw : Device) : Diag :=
  if hw IOPMP_CFG_BASE 0xffffffffffffffff ≠ 0xffffffffffffffff ∨
      (IOPMP_NUM_PMP > 8 ∧ hw (IOPMP_CFG_BASE + 0x8) 0xffffffffffffffff ≠ 0xffffffffffffffff) then
    Diag.cfg_failed
  else Diag.cfg_succeeded

/-- The stores the address register loop of `init_iopmp` makes for the indices in `l`. -/
def addr_loop_writes (l : List Nat) : List (Nat × Nat) :=
  l.flatMap fun i =>
    [(IOPMP_ADDR_BASE + i * 0x8, 0xffffffffffffffff), (IOPMP_ADDR_BASE + i * 0x8, 0)]

/-- The stores the config check of `init_iopmp` makes. -/
def cfg_check_writes : List (Nat × Nat) :=
  [(IOPMP_CFG_BASE, 0xffffffffffffffff), (IOPMP_CFG_BASE + 0x8, 0xffffffffffffffff),
    (IOPMP_CFG_BASE, 0), (IOPMP_CFG_BASE + 0x8, 0)]

/-! ## Lemmas on the machine operations -/

theorem and_two_pow_ne_zero (r j : Nat) : r &&& 2 ^ j ≠ 0 ↔ r.testBit j = true := by
  constructor
  · intro h
    by_contra hb
    apply h
    apply Nat.eq_of_testBit_eq
    intro k
    simp only [Nat.testBit_and, Nat.testBit_two_pow, Nat.zero_testBit]
    by_cases hk : j = k
    · subst hk
      simp [hb]
    · simp [hk]
  · intro hb h0
    have h1 := congrArg (fun x => x.testBit j) h0
    simp [Nat.testBit_two_pow_self, hb] at h1

theorem shl64_two_pow_one (j : Nat) : shl64 (2 ^ j % 2 ^ 64) 1 = 2 ^ (j + 1) % 2 ^ 64 := by
  unfold shl64
  rw [Nat.shiftLeft_eq, pow_succ]
  norm_num
  omega

/-- The bit scan started at bit `j` with `n` bits left: it leaves the loop (never runs out of
fuel), after at most `n` increments, having seen only zero bits, and stops on a set bit when
it stops early. -/
theorem scan_from (ret : Nat) : ∀ n j g, j + n = 64 →
    ∃ g', scan ret (n + 1) (2 ^ j % 2 ^ 64) g = some g' ∧ g ≤ g' ∧ g' ≤ g + n ∧
      (∀ t, j ≤ t → t < j + (g' - g) → ret.testBit t = false) ∧
      (g' < g + n → ret.testBit (j + (g' - g)) = true) := by
  intro n
  induction n with
  | zero =>
    intro j g hj
    have hj64 : j = 64 := by omega
    subst hj64
    refine ⟨g, ?_, le_refl _, le_refl _, ?_, ?_⟩
    · simp [scan]
    · intro t h1 h2
      omega
    · intro h
      omega
  | succ n ih =>
    intro j g hj
    have hjlt : j < 64 := by omega
    have hpow : 2 ^ j % 2 ^ 64 = 2 ^ j :=
      Nat.mod_eq_of_lt (Nat.pow_lt_pow_right (by norm_num) hjlt)
    have hne : 2 ^ j % 2 ^ 64 ≠ 0 := by
      rw [hpow]
      exact Nat.pos_iff_ne_zero.mp (Nat.pos_pow_of_pos j (by norm_num))
    by_cases hb : ret.testBit j = true
    · refine ⟨g, ?_, le_refl _, by omega, ?_, ?_⟩
      · rw [scan, if_neg hne, if_pos]
        rw [hpow]
        exact (and_two_pow_ne_zero ret j).mpr hb
      · intro t h1 h2
        omega
      · intro _
        simpa using hb
    · obtain ⟨g', h1, h2, h3, h4, h5⟩ := ih (j + 1) (g + 1) (by omega)
      refine ⟨g', ?_, by omega, by omega, ?_, ?_⟩
      · rw [scan, if_neg hne, if_neg, shl64_two_pow_one]
        · exact h1
        · rw [hpow]
          intro hc
          exact hb ((and_two_pow_ne_zero ret j).mp hc)
      · intro t ht1 ht2
        by_cases htj : t = j
        · subst htj
          simpa using hb
        · exact h4 t (by omega) (by omega)
      · intro hlt
        have h6 := h5 (by omega)
        have he : j + (g' - g) = j + 1 + (g' - (g + 1)) := by omega
        rw [he]
        exact h6

/-- The bit scan of `detect_iopmp_granule` always leaves its loop: the counter ends between 2
and 66, every bit below the position reached is zero, and when the counter stops short of 66
the bit reached is set. -/
theorem scan_spec (ret : Nat) :
    ∃ g, scan ret 65 1 2 = some g ∧ 2 ≤ g ∧ g ≤ 66 ∧
      (∀ t, t < g - 2 → ret.testBit t = false) ∧ (g < 66 → ret.testBit (g - 2) = true) := by
  obtain ⟨g, h1, h2, h3, h4, h5⟩ := scan_from ret 64 0 2 (by norm_num)
  refine ⟨g, ?_, h2, by omega, ?_, ?_⟩
  · simpa using h1
  · intro t ht
    exact h4 t (by omega) (by omega)
  · intro hg
    have h6 := h5 (by omega)
    simpa using h6

/-- When the read-back has exactly `z` trailing zero bits the scan ends with `g = z + 2`. -/
theorem scan_trailing_zeros (ret z : Nat) (hz : ∀ t, t < z → ret.testBit t = false)
    (hz1 : ret.testBit z = true) (hz63 : z ≤ 63) : scan ret 65 1 2 = some (z + 2) := by
  obtain ⟨g, h1, h2, h3, h4, h5⟩ := scan_spec ret
  rw [h1]
  congr 1
  by_contra hne
  rcases Nat.lt_or_gt_of_ne hne with hlt | hgt
  · have h6 := h5 (by omega)
    have h7 := hz (g - 2) (by omega)
    rw [h6] at h7
    exact absurd h7 (by decide)
  · have h7 := h4 z (by omega)
    rw [hz1] at h7
    exact absurd h7 (by decide)

/-- The descriptor `set_iopmp` returns is its argument, on both paths. -/
theorem set_iopmp_fst (hw : Device) (p : iopmpcfg_t) (s : State) : (set_iopmp hw p s).1 = p := by
  unfold set_iopmp
  split <;> rfl

theorem toU64_of_nonneg (x : Int) (h0 : 0 ≤ x) (h1 : x < 2 ^ 64) : toU64 x = x.toNat := by
  unfold toU64
  rw [Int.emod_eq_of_lt h0 h1]

theorem testBit_not64 (x i : Nat) :
    (not64 x).testBit i = (decide (i < 64) && !x.testBit i) := by
  have h : not64 x = 2 ^ 64 - (x % 2 ^ 64 + 1) := by
    unfold not64
    omega
  rw [h, Nat.testBit_two_pow_sub_succ (Nat.mod_lt _ (by norm_num)), Nat.testBit_mod_two_pow]
  by_cases hi : i < 64 <;> simp [hi]

/-- A word of the form `m * 2^(j+1) + (2^j - 1)` has exactly `j` trailing one bits. -/
theorem trailing_ones_napot (m : Nat) : ∀ j n, j < n →
    trailing_ones n (2 ^ (j + 1) * m + (2 ^ j - 1)) = j := by
  intro j
  induction j with
  | zero =>
    intro n hn
    obtain ⟨n, rfl⟩ : ∃ n', n = n' + 1 := ⟨n - 1, by omega⟩
    have h : (2 ^ (0 + 1) * m + (2 ^ 0 - 1)) % 2 ≠ 1 := by
      norm_num
    rw [trailing_ones, if_neg h]
  | succ j ih =>
    intro n hn
    obtain ⟨n, rfl⟩ : ∃ n', n = n' + 1 := ⟨n - 1, by omega⟩
    have hp : 1 ≤ 2 ^ j := Nat.one_le_two_pow
    have e : 2 ^ (j + 1 + 1) * m + (2 ^ (j + 1) - 1)
        = 2 * (2 ^ (j + 1) * m + (2 ^ j - 1)) + 1 := by
      have e1 : 2 ^ (j + 1 + 1) * m = 2 * (2 ^ (j + 1) * m) := by ring
      have e2 : 2 ^ (j + 1) = 2 * 2 ^ j := by ring
      rw [e1, e2]
      omega
    have h1 : (2 * (2 ^ (j + 1) * m + (2 ^ j - 1)) + 1) % 2 = 1 := by omega
    have h2 : (2 * (2 ^ (j + 1) * m + (2 ^ j - 1)) + 1) / 2
        = 2 ^ (j + 1) * m + (2 ^ j - 1) := by omega
    rw [e, trailing_ones, if_pos h1, h2, ih n (by omega)]

/-- The address register value `set_iopmp_napot_access` computes for a region of size
`2^(j+3)` at a base that is a multiple of its size. -/
theorem napot_a0_value (hw : Device) (s : State) (j m access slot : Nat) (hj : j ≤ 60)
    (hb : 2 ^ (j + 3) * m < 2 ^ 64) :
    (set_iopmp_napot_access hw (2 ^ (j + 3) * m) (2 ^ (j + 3)) access slot s).1.a0
      = 2 ^ (j + 1) * m + (2 ^ j - 1) := by
  unfold set_iopmp_napot_access
  rw [set_iopmp_fst]
  show ((2 ^ (j + 3) * m + sub64 (2 ^ (j + 3) / 2) 1) % 2 ^ 64) >>> PMP_SHIFT = _
  have hp : 1 ≤ 2 ^ j := Nat.one_le_two_pow
  have h64 : 2 ^ (j + 3) * 2 ^ (61 - j) = 2 ^ 64 := by
    rw [← pow_add]
    congr 1
    omega
  have hm : m + 1 ≤ 2 ^ (61 - j) := by
    rw [← h64] at hb
    exact Nat.lt_of_mul_lt_mul_left hb
  have hsum : 2 ^ (j + 3) * m + 2 ^ (j + 3) ≤ 2 ^ 64 := by
    calc 2 ^ (j + 3) * m + 2 ^ (j + 3) = 2 ^ (j + 3) * (m + 1) := by ring
      _ ≤ 2 ^ (j + 3) * 2 ^ (61 - j) := Nat.mul_le_mul_left _ hm
      _ = 2 ^ 64 := h64
  have e1 : 2 ^ (j + 3) * m = 8 * (2 ^ j * m) := by ring
  have e2 : 2 ^ (j + 3) = 8 * 2 ^ j := by ring
  have e3 : 2 ^ (j + 1) * m = 2 * (2 ^ j * m) := by ring
  rw [e1, e2] at hsum
  rw [e1, e2, e3, Nat.shiftRight_eq_div_pow]
  unfold sub64 PMP_SHIFT
  generalize 2 ^ j * m = q at *
  generalize 2 ^ j = P at *
  have hs : (8 * P / 2 + (2 ^ 64 - 1 % 2 ^ 64)) % 2 ^ 64 = 4 * P - 1 := by
    norm_num at hsum ⊢
    omega
  rw [hs]
  have hlt : 8 * q + (4 * P - 1) < 2 ^ 64 := by
    norm_num at hsum ⊢
    omega
  rw [Nat.mod_eq_of_lt hlt]
  norm_num
  omega

/-- The state `detect_iopmp_granule` produces once the bit scan has returned `g`. -/
theorem detect_of_scan (wide : Nat → Nat) (hw : Device) (s : State) (g : Nat)
    (h : scan (hw IOPMP_ADDR_BASE 0xffffffffffffffff) 65 1 2 = some g) :
    detect_iopmp_granule wide hw s
      = some (sbi_printf (Diag.granularity (toInt32 (shl_ul wide g)))
          { write hw IOPMP_ADDR_BASE 0xffffffffffffffff (write hw IOPMP_CFG_BASE 0x0 s) with
            iopmp_granule := toInt32 (shl_ul wide g) }) := by
  have hr : read IOPMP_ADDR_BASE
      (write hw IOPMP_ADDR_BASE 0xffffffffffffffff (write hw IOPMP_CFG_BASE 0x0 s))
      = hw IOPMP_ADDR_BASE 0xffffffffffffffff := by
    simp [read, write]
  unfold detect_iopmp_granule
  simp only [hr, h]

/-- Where the shift `1UL << g` is defined its value does not depend on the build. -/
theorem shl_ul_of_lt (wide : Nat → Nat) (g : Nat) (h : g < 64) : shl_ul wide g = shl64 1 g := by
  unfold shl_ul
  rw [if_pos h]

/-- Where the shift `1UL << g` is defined, the value stored in the `int` cache for a scan
result `g` is negative only for `g = 31`. -/
theorem granule_nonneg (wide : Nat → Nat) (g : Nat) (h2 : 2 ≤ g) (h63 : g ≤ 63)
    (h31 : g ≠ 31) : 0 ≤ toInt32 (shl_ul wide g) := by
  rw [shl_ul_of_lt wide g (by omega)]
  interval_cases g <;> first | decide | exact absurd rfl h31

theorem granule_small (wide : Nat → Nat) (z : Nat) (h : z ≤ 28) :
    toInt32 (shl_ul wide (z + 2)) = 2 ^ (z + 2) := by
  rw [shl_ul_of_lt wide (z + 2) (by omega)]
  interval_cases z <;> decide

theorem init_addr_step_granule (hw : Device) (s : State) (i : Nat) :
    (init_addr_step hw s i).iopmp_granule = s.iopmp_granule := by
  unfold init_addr_step
  dsimp only
  split_ifs <;> rfl

theorem init_addr_loop_granule (hw : Device) (l : List Nat) :
    ∀ s : State, (l.foldl (init_addr_step hw) s).iopmp_granule = s.iopmp_granule := by
  induction l with
  | nil => intro s; rfl
  | cons i l ih =>
    intro s
    rw [List.foldl_cons, ih, init_addr_step_granule]

theorem init_cfg_check_granule (hw : Device) (s : State) :
    (init_cfg_check hw s).iopmp_granule = s.iopmp_granule := by
  unfold init_cfg_check
  dsimp only
  split_ifs <;> rfl

/-! ## `set_iopmp` on the slots whose mask is a byte mask -/

theorem testBit_ff (i : Nat) : (0xff : Nat).testBit i = decide (i < 8) := by
  have h : (0xff : Nat) = 2 ^ 8 - 1 := by norm_num
  rw [h, Nat.testBit_two_pow_sub_one]

theorem lane_update (c w sh l : Nat) (hsh : sh < 8) (hl : l < 8) :
    lane ((shl64 c (8 * sh) &&& (0xff <<< (8 * sh))) |||
        ((w &&& not64 (0xff <<< (8 * sh))) &&& not64 (0xff <<< (8 * sh)))) l
      = if l = sh then c &&& 0xff else lane w l := by
  have h64 : 8 * sh % 64 = 8 * sh := Nat.mod_eq_of_lt (by omega)
  apply Nat.eq_of_testBit_eq
  intro i
  unfold lane shl64
  rw [h64]
  by_cases hi : i < 8
  · by_cases hls : l = sh
    · subst hls
      have e1 : 8 * l + i - 8 * l = i := by omega
      have e2 : 8 * l + i < 64 := by omega
      have e3 : 8 * l ≤ 8 * l + i := by omega
      simp only [Nat.testBit_and, Nat.testBit_or, Nat.testBit_shiftRight, testBit_not64,
        Nat.testBit_mod_two_pow, Nat.testBit_shiftLeft, testBit_ff]
      simp [testBit_ff, hi, e1, e2, e3]
    · rw [if_neg hls]
      have e2 : 8 * l + i < 64 := by omega
      simp only [Nat.testBit_and, Nat.testBit_or, Nat.testBit_shiftRight, testBit_not64,
        Nat.testBit_mod_two_pow, Nat.testBit_shiftLeft, testBit_ff]
      by_cases e5 : 8 * sh ≤ 8 * l + i
      · have e6 : ¬ 8 * l + i - 8 * sh < 8 := by omega
        simp [hi, e2, e5, e6]
      · simp [hi, e2, e5]
  · split_ifs <;> simp [testBit_ff, hi]

theorem mask_low (sh : Nat) (h : sh < 3) : toU64 (shl_int 0xff (8 * sh)) = 0xff <<< (8 * sh) := by
  interval_cases sh <;> decide

theorem set_iopmp_regs (s : State) (p : iopmpcfg_t) (h16 : p.slot < IOPMP_NUM_PMP) :
    (set_iopmp plain p s).2.regs = fun x =>
      if x = IOPMP_CFG_BASE + 8 * (p.slot / 8) then
        (shl64 p.cfg (8 * (p.slot % 8)) &&& toU64 (shl_int 0xff (8 * (p.slot % 8)))) |||
          ((s.regs (IOPMP_CFG_BASE + 8 * (p.slot / 8)) &&&
              not64 (toU64 (shl_int 0xff (8 * (p.slot % 8))))) &&&
            not64 (toU64 (shl_int 0xff (8 * (p.slot % 8)))))
      else if x = IOPMP_ADDR_BASE + 8 * p.slot then p.a0
      else s.regs x := by
  unfold IOPMP_NUM_PMP at h16
  have hc : IOPMP_CFG_BASE + (if p.slot < 8 then 0x0 else 0x8)
      = IOPMP_CFG_BASE + 8 * (p.slot / 8) := by
    split_ifs <;> omega
  have hs : (if p.slot ≥ 8 then p.slot - 8 else p.slot) = p.slot % 8 := by
    split_ifs <;> omega
  have hne : IOPMP_CFG_BASE + 8 * (p.slot / 8) ≠ IOPMP_ADDR_BASE + 8 * p.slot := by
    show IOPMP_BASE + 0x80 + 8 * (p.slot / 8) ≠ IOPMP_BASE + 0x0 + 8 * p.slot
    omega
  have hguard : ¬ (p.slot < 0 ∨ p.slot ≥ IOPMP_NUM_PMP) := by
    unfold IOPMP_NUM_PMP
    omega
  unfold set_iopmp
  rw [if_neg hguard]
  simp only [hc, hs, write, read, plain]
  funext x
  by_cases h1 : x = IOPMP_CFG_BASE + 8 * (p.slot / 8)
  · simp [h1, hne]
  · simp [h1]

/-- Where the `int` mask of `set_iopmp` is the byte mask of the slot (slots 0, 1, 2, 8, 9, 10)
the call does what is meant, on registers behaving as storage: the address register and the
config lane of the slot read back `a0` and `cfg & 0xff`, and the address register and config
lane of every other slot hold the value they held before. -/
theorem set_iopmp_low_lanes (s : State) (p : iopmpcfg_t) (h16 : p.slot < IOPMP_NUM_PMP)
    (hl : p.slot % 8 < 3) :
    addr_reg (set_iopmp plain p s).2 p.slot = p.a0 ∧
    cfg_byte (set_iopmp plain p s).2 p.slot = p.cfg &&& 0xff ∧
    ∀ i, i < IOPMP_NUM_PMP → i ≠ p.slot →
      addr_reg (set_iopmp plain p s).2 i = addr_reg s i ∧
      cfg_byte (set_iopmp plain p s).2 i = cfg_byte s i := by
  have hr := set_iopmp_regs s p h16
  rw [mask_low _ hl] at hr
  unfold IOPMP_NUM_PMP at h16
  have haddr : ∀ i, i < 16 → IOPMP_ADDR_BASE + 8 * i ≠ IOPMP_CFG_BASE + 8 * (p.slot / 8) := by
    intro i hi
    show IOPMP_BASE + 0x0 + 8 * i ≠ IOPMP_BASE + 0x80 + 8 * (p.slot / 8)
    omega
  have hcfg : ∀ i, IOPMP_CFG_BASE + 8 * (i / 8) ≠ IOPMP_ADDR_BASE + 8 * p.slot := by
    intro i
    show IOPMP_BASE + 0x80 + 8 * (i / 8) ≠ IOPMP_BASE + 0x0 + 8 * p.slot
    omega
  have hbyte : ∀ i, i < 16 → cfg_byte (set_iopmp plain p s).2 i
      = if i = p.slot then p.cfg &&& 0xff else cfg_byte s i := by
    intro i hi
    unfold cfg_byte cfg_word read
    rw [hr]
    by_cases hw : i / 8 = p.slot / 8
    · simp only [hw, if_true]
      rw [lane_update _ _ _ _ (by omega) (by omega)]
      by_cases he : i = p.slot
      · simp [he]
      · have hne : i % 8 ≠ p.slot % 8 := by omega
        rw [if_neg hne, if_neg he]
    · have h1 : IOPMP_CFG_BASE + 8 * (i / 8) ≠ IOPMP_CFG_BASE + 8 * (p.slot / 8) := by omega
      have he : i ≠ p.slot := by
        intro h
        exact hw (by rw [h])
      simp only [if_neg h1, if_neg (hcfg i), if_neg he]
  refine ⟨?_, ?_, ?_⟩
  · unfold addr_reg read
    rw [hr]
    simp only [if_neg (haddr p.slot h16), if_true]
  · rw [hbyte p.slot h16, if_pos rfl]
  · intro i hi hne
    unfold IOPMP_NUM_PMP at hi
    refine ⟨?_, ?_⟩
    · unfold addr_reg read
      rw [hr]
      have h2 : IOPMP_ADDR_BASE + 8 * i ≠ IOPMP_ADDR_BASE + 8 * p.slot := by omega
      simp only [if_neg (haddr i hi), if_neg h2]
    · rw [hbyte i hi, if_neg hne]

theorem set_iopmp_low_lanes_witness :
    addr_reg (set_iopmp plain ⟨0x1F, 0x1000, 9⟩ (mkState (fun _ => 7) 5 6 (-1))).2 9 = 0x1000 ∧
    cfg_byte (set_iopmp plain ⟨0x1F, 0x1000, 9⟩ (mkState (fun _ => 7) 5 6 (-1))).2 9
      = 0x1F &&& 0xff :=
  ⟨(set_iopmp_low_lanes (mkState (fun _ => 7) 5 6 (-1)) ⟨0x1F, 0x1000, 9⟩
      (by decide) (by decide)).1,
    (set_iopmp_low_lanes (mkState (fun _ => 7) 5 6 (-1)) ⟨0x1F, 0x1000, 9⟩
      (by decide) (by decide)).2.1⟩

/-! ## The self-test, step by step -/

/-- One round of the address register loop: the register ends holding what it latches for a
written `0`, two stores are made, one line is printed, the cache is not touched. -/
theorem init_addr_step_eq (hw : Device) (s : State) (i : Nat) :
    init_addr_step hw s i =
      { regs := fun x =>
          if x = IOPMP_ADDR_BASE + i * 0x8 then hw (IOPMP_ADDR_BASE + i * 0x8) 0 else s.regs x
        iopmp_granule := s.iopmp_granule
        writes := s.writes ++ addr_loop_writes [i]
        console := s.console ++ [addr_line hw s.iopmp_granule i] } := by
  unfold init_addr_step addr_line expected_readback addr_loop_writes
  simp only [read, write, sbi_printf, if_true, List.flatMap_cons, List.flatMap_nil,
    List.append_nil, List.append_assoc, List.singleton_append]
  split_ifs <;> congr 1 <;> first
    | (funext x; by_cases hx : x = IOPMP_ADDR_BASE + i * 0x8 <;> simp [hx])
    | simp

theorem addr_loop_writes_cons (i : Nat) (l : List Nat) :
    addr_loop_writes (i :: l) = addr_loop_writes [i] ++ addr_loop_writes l := by
  simp [addr_loop_writes]

/-- The address register loop over the indices in `l`. -/
theorem init_addr_loop_eq (hw : Device) (l : List Nat) : ∀ s : State,
    l.foldl (init_addr_step hw) s =
      { regs := fun x =>
          if x ∈ l.map (fun i => IOPMP_ADDR_BASE + i * 0x8) then hw x 0 else s.regs x
        iopmp_granule := s.iopmp_granule
        writes := s.writes ++ addr_loop_writes l
        console := s.console ++ l.map (addr_line hw s.iopmp_granule) } := by
  induction l with
  | nil =>
    intro s
    simp [addr_loop_writes]
  | cons i l ih =>
    intro s
    rw [List.foldl_cons, ih, init_addr_step_eq, addr_loop_writes_cons i l]
    congr 1
    · funext x
      by_cases h1 : x ∈ l.map (fun i => IOPMP_ADDR_BASE + i * 0x8)
      · simp [h1]
      · by_cases h2 : x = IOPMP_ADDR_BASE + i * 0x8
        · simp [h2]
        · simp [h1, h2]
    · simp
    · simp

/-- The config check: both words end holding what they latch for a written `0`, four stores
are made, one line is printed, the cache is not touched. -/
theorem init_cfg_check_eq (hw : Device) (s : State) :
    init_cfg_check hw s =
      { regs := fun x =>
          if x = IOPMP_CFG_BASE + 0x8 then hw (IOPMP_CFG_BASE + 0x8) 0
          else if x = IOPMP_CFG_BASE then hw IOPMP_CFG_BASE 0 else s.regs x
        iopmp_granule := s.iopmp_granule
        writes := s.writes ++ cfg_check_writes
        console := s.console ++ [cfg_line hw] } := by
  have h8 : IOPMP_NUM_PMP > 8 := by decide
  have hne : IOPMP_CFG_BASE ≠ IOPMP_CFG_BASE + 0x8 := by omega
  unfold init_cfg_check cfg_line cfg_check_writes
  simp only [read, write, sbi_printf, if_pos h8, if_true, if_neg hne]
  split_ifs <;> congr 1 <;> first
    | (funext x
       by_cases hx : x = IOPMP_CFG_BASE + 0x8
       · simp [hx]
       · by_cases hy : x = IOPMP_CFG_BASE <;> simp [hx, hy])
    | simp

/-- The whole of `init_iopmp` when the cache is not negative: no detection. -/
theorem init_iopmp_of_nonneg (wide : Nat → Nat) (hw : Device) (s : State)
    (h : 0 ≤ s.iopmp_granule) :
    init_iopmp wide hw s
      = some (init_cfg_check hw ((List.range IOPMP_NUM_PMP).foldl (init_addr_step hw) s)) := by
  unfold init_iopmp
  rw [if_neg (not_lt.mpr h)]
  rfl

/-- The whole of `init_iopmp` when the cache is negative and the detection gives `s1`. -/
theorem init_iopmp_of_neg (wide : Nat → Nat) (hw : Device) (s s1 : State)
    (h : s.iopmp_granule < 0)
    (hd : detect_iopmp_granule wide hw s = some s1) :
    init_iopmp wide hw s
      = some (init_cfg_check hw ((List.range IOPMP_NUM_PMP).foldl (init_addr_step hw) s1)) := by
  unfold init_iopmp
  rw [if_pos h, hd]
  rfl

/-- The self-test proper (address loop, then config check) run from the state `s`. -/
theorem init_checks_eq (hw : Device) (s : State) :
    init_cfg_check hw ((List.range IOPMP_NUM_PMP).foldl (init_addr_step hw) s) =
      { regs := fun x =>
          if x = IOPMP_CFG_BASE + 0x8 then hw (IOPMP_CFG_BASE + 0x8) 0
          else if x = IOPMP_CFG_BASE then hw IOPMP_CFG_BASE 0
          else if x ∈ (List.range IOPMP_NUM_PMP).map (fun i => IOPMP_ADDR_BASE + i * 0x8) then
            hw x 0
          else s.regs x
        iopmp_granule := s.iopmp_granule
        writes := s.writes ++ (addr_loop_writes (List.range IOPMP_NUM_PMP) ++ cfg_check_writes)
        console := s.console ++
          ((List.range IOPMP_NUM_PMP).map (addr_line hw s.iopmp_granule) ++ [cfg_line hw]) } := by
  rw [init_cfg_check_eq, init_addr_loop_eq]
  simp only [List.append_assoc]

/-- `init_iopmp` always returns: it is the self-test proper run from a state `s1` that is
either the initial state or the state the detection leaves. -/
theorem init_iopmp_shape (wide : Nat → Nat) (hw : Device) (s : State) :
    ∃ s1 pre, init_iopmp wide hw s
        = some (init_cfg_check hw ((List.range IOPMP_NUM_PMP).foldl (init_addr_step hw) s1)) ∧
      s1.writes = s.writes ++ pre := by
  by_cases h : s.iopmp_granule < 0
  · obtain ⟨g, hg, _⟩ := scan_spec (hw IOPMP_ADDR_BASE 0xffffffffffffffff)
    have hd := detect_of_scan wide hw s g hg
    refine ⟨_, [(IOPMP_CFG_BASE, 0x0), (IOPMP_ADDR_BASE, 0xffffffffffffffff)],
      init_iopmp_of_neg wide hw s _ h hd, ?_⟩
    simp [sbi_printf, write]
  · exact ⟨s, [], init_iopmp_of_nonneg wide hw s (not_lt.mp h), by simp⟩

theorem last_write_append (a v : Nat) (l2 : List (Nat × Nat)) (h : last_write a l2 = some v) :
    ∀ l1, last_write a (l1 ++ l2) = some v := by
  intro l1
  induction l1 with
  | nil => simpa using h
  | cons w l1 ih =>
    rw [List.cons_append, last_write, ih]

theorem trailing_zeros_spec : ∀ n a, trailing_zeros n a ≤ n ∧
    (∀ t, t < trailing_zeros n a → a.testBit t = false) ∧
    (trailing_zeros n a < n → a.testBit (trailing_zeros n a) = true) := by
  intro n
  induction n with
  | zero =>
    intro a
    refine ⟨le_refl _, ?_, ?_⟩
    · intro t ht
      simp [trailing_zeros] at ht
    · intro h
      simp [trailing_zeros] at h
  | succ n ih =>
    intro a
    obtain ⟨h1, h2, h3⟩ := ih (a / 2)
    by_cases ha : a % 2 = 0
    · have e : trailing_zeros (n + 1) a = trailing_zeros n (a / 2) + 1 := by
        rw [trailing_zeros, if_pos ha]
      rw [e]
      refine ⟨by omega, ?_, ?_⟩
      · intro t ht
        cases t with
        | zero =>
          rw [Nat.testBit_zero]
          simp [ha]
        | succ t =>
          rw [Nat.testBit_succ]
          exact h2 t (by omega)
      · intro hlt
        rw [Nat.testBit_succ]
        exact h3 (by omega)
    · have e : trailing_zeros (n + 1) a = 0 := by
        rw [trailing_zeros, if_neg ha]
      rw [e]
      refine ⟨by omega, ?_, ?_⟩
      · intro t ht
        omega
      · intro _
        rw [Nat.testBit_zero]
        have : a % 2 = 1 := by omega
        simp [this]

/-- The bit scan ends, for every read-back, with `g = 2 +` the number of trailing zero bits
among the low 64 bits. -/
theorem scan_eq_trailing_zeros (ret : Nat) :
    scan ret 65 1 2 = some (2 + trailing_zeros 64 ret) := by
  obtain ⟨g, h1, h2, h3, h4, h5⟩ := scan_spec ret
  obtain ⟨z1, z2, z3⟩ := trailing_zeros_spec 64 ret
  rw [h1]
  congr 1
  by_contra hne
  rcases Nat.lt_or_gt_of_ne hne with hlt | hgt
  · have h6 := h5 (by omega)
    have h7 := z2 (g - 2) (by omega)
    rw [h6] at h7
    exact absurd h7 (by decide)
  · have h6 := z3 (by omega)
    have h7 := h4 (trailing_zeros 64 ret) (by omega)
    rw [h6] at h7
    exact absurd h7 (by decide)

/-- For a cache value `2^g` that fits the `int` cache the expected read-back is the 54-bit
all-ones pattern with its low `g - 2` bits cleared. -/
theorem expected_readback_pow (g : Nat) (h2 : 2 ≤ g) (h30 : g ≤ 30) :
    expected_readback (2 ^ g) = 0x3FFFFFFFFFFFFF &&& not64 (2 ^ (g - 2) - 1) := by
  interval_cases g <;> decide

theorem set_iopmp_granule (hw : Device) (p : iopmpcfg_t) (s : State) :
    (set_iopmp hw p s).2.iopmp_granule = s.iopmp_granule := by
  unfold set_iopmp
  split <;> rfl

theorem set_iopmp_console (hw : Device) (p : iopmpcfg_t) (s : State) :
    (set_iopmp hw p s).2.console = s.console := by
  unfold set_iopmp
  split <;> rfl

/-- The stores of `set_iopmp` for a valid slot, for any device: exactly three, the config
word with `~mask` applied, the address register, the config word with the new byte merged
in; `mask` is the value the code computes. -/
theorem set_iopmp_writes (hw : Device) (s : State) (p : iopmpcfg_t)
    (h16 : p.slot < IOPMP_NUM_PMP) :
    (set_iopmp hw p s).2.writes = s.writes ++
      [(IOPMP_CFG_BASE + 8 * (p.slot / 8),
          s.regs (IOPMP_CFG_BASE + 8 * (p.slot / 8)) &&&
            not64 (toU64 (shl_int 0xff (8 * (p.slot % 8))))),
        (IOPMP_ADDR_BASE + 8 * p.slot, p.a0),
        (IOPMP_CFG_BASE + 8 * (p.slot / 8),
          (shl64 p.cfg (8 * (p.slot % 8)) &&& toU64 (shl_int 0xff (8 * (p.slot % 8)))) |||
            (hw (IOPMP_CFG_BASE + 8 * (p.slot / 8))
                (s.regs (IOPMP_CFG_BASE + 8 * (p.slot / 8)) &&&
                  not64 (toU64 (shl_int 0xff (8 * (p.slot % 8))))) &&&
              not64 (toU64 (shl_int 0xff (8 * (p.slot % 8))))))] := by
  unfold IOPMP_NUM_PMP at h16
  have hc : IOPMP_CFG_BASE + (if p.slot < 8 then 0x0 else 0x8)
      = IOPMP_CFG_BASE + 8 * (p.slot / 8) := by
    split_ifs <;> omega
  have hs : (if p.slot ≥ 8 then p.slot - 8 else p.slot) = p.slot % 8 := by
    split_ifs <;> omega
  have hne : IOPMP_CFG_BASE + 8 * (p.slot / 8) ≠ IOPMP_ADDR_BASE + 8 * p.slot := by
    show IOPMP_BASE + 0x80 + 8 * (p.slot / 8) ≠ IOPMP_BASE + 0x0 + 8 * p.slot
    omega
  have hguard : ¬ (p.slot < 0 ∨ p.slot ≥ IOPMP_NUM_PMP) := by
    unfold IOPMP_NUM_PMP
    omega
  unfold set_iopmp
  rw [if_neg hguard]
  simp only [hc, hs, write, read, if_neg hne, if_true, List.append_assoc,
    List.singleton_append]
  rfl

/-- On a conforming unit of parameter `k` the bit scan of the detection ends with `k + 2`. -/
theorem scan_conforming (k : Nat) (hk : k ≤ 28) :
    scan (conforming k IOPMP_ADDR_BASE 0xffffffffffffffff) 65 1 2 = some (k + 2) := by
  interval_cases k <;> decide

/-- What an address register of a conforming unit reads back after all-ones is written. -/
theorem conforming_addr (k i : Nat) (hi : i < IOPMP_NUM_PMP) :
    conforming k (IOPMP_ADDR_BASE + i * 0x8) 0xffffffffffffffff
      = 0x3FFFFFFFFFFFFF &&& not64 (2 ^ k - 1) := by
  unfold IOPMP_NUM_PMP at hi
  have hin : IOPMP_ADDR_BASE ≤ IOPMP_ADDR_BASE + i * 0x8 ∧
      IOPMP_ADDR_BASE + i * 0x8 < IOPMP_CFG_BASE := by
    constructor
    · omega
    · show IOPMP_BASE + 0x0 + i * 0x8 < IOPMP_BASE + 0x80
      omega
  have h54 : (0xffffffffffffffff : Nat) &&& 0x3FFFFFFFFFFFFF = 0x3FFFFFFFFFFFFF := by decide
  unfold conforming
  rw [if_pos hin, h54]

/-- The config words of a conforming unit store what is written. -/
theorem conforming_cfg (k a v : Nat) (ha : IOPMP_CFG_BASE ≤ a) : conforming k a v = v := by
  unfold conforming
  rw [if_neg]
  omega

/-- A conforming unit holds `0` in a register once `0` is written to it. -/
theorem conforming_zero (k a : Nat) : conforming k a 0 = 0 := by
  unfold conforming
  split_ifs <;> simp

/-- After the self-test proper, on a device that holds `0` once `0` is written, all 16 address
registers and both config words read `0`. -/
theorem init_checks_regs_zero (hw : Device) (s : State) (h0 : ∀ a, hw a 0 = 0) :
    (∀ i, i < IOPMP_NUM_PMP → addr_reg
      (init_cfg_check hw ((List.range IOPMP_NUM_PMP).foldl (init_addr_step hw) s)) i = 0) ∧
    cfg_word (init_cfg_check hw ((List.range IOPMP_NUM_PMP).foldl (init_addr_step hw) s)) 0 = 0 ∧
    cfg_word (init_cfg_check hw ((List.range IOPMP_NUM_PMP).foldl (init_addr_step hw) s)) 1
      = 0 := by
  rw [init_checks_eq]
  have hc1 : IOPMP_CFG_BASE + 8 * 1 = IOPMP_CFG_BASE + 0x8 := rfl
  have hc0 : IOPMP_CFG_BASE + 8 * 0 = IOPMP_CFG_BASE := rfl
  have hne : IOPMP_CFG_BASE ≠ IOPMP_CFG_BASE + 0x8 := by omega
  refine ⟨?_, ?_, ?_⟩
  · intro i hi
    have hmem : IOPMP_ADDR_BASE + 8 * i
        ∈ (List.range IOPMP_NUM_PMP).map (fun i => IOPMP_ADDR_BASE + i * 0x8) :=
      List.mem_map.mpr ⟨i, List.mem_range.mpr hi, by omega⟩
    unfold IOPMP_NUM_PMP at hi
    have h1 : IOPMP_ADDR_BASE + 8 * i ≠ IOPMP_CFG_BASE + 0x8 := by
      show IOPMP_BASE + 0x0 + 8 * i ≠ IOPMP_BASE + 0x80 + 0x8
      omega
    have h2 : IOPMP_ADDR_BASE + 8 * i ≠ IOPMP_CFG_BASE := by
      show IOPMP_BASE + 0x0 + 8 * i ≠ IOPMP_BASE + 0x80
      omega
    simp only [addr_reg, read, if_neg h1, if_neg h2, if_pos hmem, h0]
  · simp only [cfg_word, read, hc0, if_neg hne, if_true, h0]
  · simp only [cfg_word, read, hc1, if_true, h0]

/-- The lines of the self-test proper on any device, with the conditions of the two checks
written out: `e` is the expected read-back for the cache of `s`. -/
theorem init_checks_console (hw : Device) (s : State) (e : Nat)
    (he : expected_readback s.iopmp_granule = e) :
    (init_cfg_check hw ((List.range IOPMP_NUM_PMP).foldl (init_addr_step hw) s)).console
      = s.console ++
        ((List.range IOPMP_NUM_PMP).map (fun i =>
            if hw (IOPMP_ADDR_BASE + i * 0x8) 0xffffffffffffffff = e then Diag.addr_succeeded i
            else Diag.addr_failed i (hw (IOPMP_ADDR_BASE + i * 0x8) 0xffffffffffffffff)) ++
          [if hw IOPMP_CFG_BASE 0xffffffffffffffff = 0xffffffffffffffff ∧
              hw (IOPMP_CFG_BASE + 0x8) 0xffffffffffffffff = 0xffffffffffffffff then
            Diag.cfg_succeeded
          else Diag.cfg_failed]) := by
  rw [init_checks_eq]
  show s.console ++ _ = s.console ++ _
  congr 2
  · apply List.map_congr_left
    intro i _
    unfold addr_line
    rw [he]
    by_cases h1 : hw (IOPMP_ADDR_BASE + i * 0x8) 0xffffffffffffffff = e
    · rw [if_neg (not_not.mpr h1), if_pos h1]
    · rw [if_pos h1, if_neg h1]
  · congr 1
    unfold cfg_line
    have h8 : IOPMP_NUM_PMP > 8 := by decide
    by_cases h1 : hw IOPMP_CFG_BASE 0xffffffffffffffff = 0xffffffffffffffff
    · by_cases h2 : hw (IOPMP_CFG_BASE + 0x8) 0xffffffffffffffff = 0xffffffffffffffff
      · rw [if_neg (by simp [h1, h2]), if_pos ⟨h1, h2⟩]
      · rw [if_pos (Or.inr ⟨h8, h2⟩), if_neg (fun h => h2 h.2)]
    · rw [if_pos (Or.inl h1), if_neg (fun h => h1 h.1)]

/-! ## The claims -/

/-- C1 (the code departs from the claim): the byte mask of `set_iopmp` is computed in type
`int`, so for slot 3 it is `0xFFFFFFFFFF000000` after sign extension; programming slot 3 on
a register file whose config word 0 is all-ones therefore clears the lanes of slots 4 to 7 as
well: the lane of slot 4 read `0xff` before the call and reads `0` after it. -/
theorem set_iopmp_slot3_clears_sibling_lanes :
    toU64 (shl_int 0xff (8 * 3)) = 0xFFFFFFFFFF000000 ∧
    cfg_byte (mkState (fun _ => 0) 0xFFFFFFFFFFFFFFFF 0 (-1)) 4 = 0xff ∧
    cfg_byte (set_iopmp plain ⟨0, 0, 3⟩ (mkState (fun _ => 0) 0xFFFFFFFFFFFFFFFF 0 (-1))).2 4
      = 0 ∧
    cfg_word (set_iopmp plain ⟨0, 0, 3⟩ (mkState (fun _ => 0) 0xFFFFFFFFFFFFFFFF 0 (-1))).2 0
      = 0xFFFFFF := by
  decide

/-- C2: a descriptor whose slot is 16 or more is returned as it is and nothing is written: the
state after the call, its write trace and every register included, is the state before. -/
theorem set_iopmp_invalid_slot (hw : Device) (s : State) (p : iopmpcfg_t)
    (h : IOPMP_NUM_PMP ≤ p.slot) :
    (set_iopmp hw p s).1 = p ∧ (set_iopmp hw p s).2 = s ∧
    (set_iopmp hw p s).2.writes = s.writes ∧
    (∀ a, (set_iopmp hw p s).2.regs a = s.regs a) := by
  have hs : set_iopmp hw p s = (p, s) := by
    unfold set_iopmp
    rw [if_pos (Or.inr h)]
  rw [hs]
  exact ⟨rfl, rfl, rfl, fun _ => rfl⟩

theorem set_iopmp_invalid_slot_witness :
    IOPMP_NUM_PMP ≤ (iopmpcfg_t.mk 0x1F 0x1000 16).slot ∧
    ((set_iopmp plain ⟨0x1F, 0x1000, 16⟩ (mkState (fun _ => 0) 0 0 (-1))).1
        = ⟨0x1F, 0x1000, 16⟩ ∧
      (set_iopmp plain ⟨0x1F, 0x1000, 16⟩ (mkState (fun _ => 0) 0 0 (-1))).2
        = mkState (fun _ => 0) 0 0 (-1) ∧
      (set_iopmp plain ⟨0x1F, 0x1000, 16⟩ (mkState (fun _ => 0) 0 0 (-1))).2.writes
        = (mkState (fun _ => 0) 0 0 (-1)).writes ∧
      (∀ a, (set_iopmp plain ⟨0x1F, 0x1000, 16⟩ (mkState (fun _ => 0) 0 0 (-1))).2.regs a
        = (mkState (fun _ => 0) 0 0 (-1)).regs a)) :=
  ⟨by decide, set_iopmp_invalid_slot plain (mkState (fun _ => 0) 0 0 (-1)) ⟨0x1F, 0x1000, 16⟩
    (by decide)⟩

/-- C3 (the code departs from the claim): for slot 4 the `int` mask is shifted by 32, which
gives `0xff`, the lane of slot 0; after `set_iopmp` of `cfg = 0x1F`, `a0 = 0x1000` in slot 4 on
an all-zero register file the address register reads `0x1000` but the config lane of slot 4
reads `0`, not `0x1F`. -/
theorem set_iopmp_slot4_lane_not_written :
    toU64 (shl_int 0xff (8 * 4)) = 0xff ∧
    addr_reg (set_iopmp plain ⟨0x1F, 0x1000, 4⟩ (mkState (fun _ => 0) 0 0 (-1))).2 4
      = 0x1000 ∧
    cfg_byte (set_iopmp plain ⟨0x1F, 0x1000, 4⟩ (mkState (fun _ => 0) 0 0 (-1))).2 4 = 0 ∧
    (set_iopmp plain ⟨0x1F, 0x1000, 4⟩ (mkState (fun _ => 0) 0 0 (-1))).2.writes
      = [(IOPMP_CFG_BASE, 0), (IOPMP_ADDR_BASE + 32, 0x1000), (IOPMP_CFG_BASE, 0)] := by
  decide

/-- C4 (the code departs from the claim): the two descriptors of the specification's scenario,
programmed in the opposite order on a register file whose config word 0 is
`0x0000000F00000000`. After slot 4 is programmed with `cfg = 0x0F`, `a0 = 0x2000` its lane
reads `0x0F` and its address register `0x2000`; programming slot 3 with `cfg = 0x07`,
`a0 = 0x1000` then leaves the address register alone but clears the lane of slot 4 to `0`. -/
theorem set_iopmp_slot3_disturbs_slot4 :
    cfg_byte (set_iopmp plain ⟨0x0F, 0x2000, 4⟩
      (mkState (fun _ => 0) 0x0000000F00000000 0 (-1))).2 4 = 0x0F ∧
    addr_reg (set_iopmp plain ⟨0x0F, 0x2000, 4⟩
      (mkState (fun _ => 0) 0x0000000F00000000 0 (-1))).2 4 = 0x2000 ∧
    cfg_byte (set_iopmp plain ⟨0x07, 0x1000, 3⟩ (set_iopmp plain ⟨0x0F, 0x2000, 4⟩
      (mkState (fun _ => 0) 0x0000000F00000000 0 (-1))).2).2 4 = 0 ∧
    addr_reg (set_iopmp plain ⟨0x07, 0x1000, 3⟩ (set_iopmp plain ⟨0x0F, 0x2000, 4⟩
      (mkState (fun _ => 0) 0x0000000F00000000 0 (-1))).2).2 4 = 0x2000 := by
  decide

/-- C5: with a positive granule `G` in the cache, `set_iopmp_napot` returns a descriptor with
`cfg = 0x17` (mode field NA4, permissions R|W|X) when `range <= G` and with `cfg = 0x1F` (mode
field NAPOT, permissions R|W|X) when `range > G`, for every base, range and slot. -/
theorem set_iopmp_napot_mode (hw : Device) (s : State) (base range slot : Nat)
    (hG : 0 < s.iopmp_granule) (hG31 : s.iopmp_granule < 2 ^ 31) :
    ((range : Int) ≤ s.iopmp_granule →
      (set_iopmp_napot hw base range slot s).1.cfg = 0x17 ∧
      (set_iopmp_napot hw base range slot s).1.cfg &&& 0x18 = PMP_A_NA4 ∧
      (set_iopmp_napot hw base range slot s).1.cfg &&& 0x07 = PMP_R ||| PMP_W ||| PMP_X) ∧
    (s.iopmp_granule < (range : Int) →
      (set_iopmp_napot hw base range slot s).1.cfg = 0x1F ∧
      (set_iopmp_napot hw base range slot s).1.cfg &&& 0x18 = PMP_A_NAPOT ∧
      (set_iopmp_napot hw base range slot s).1.cfg &&& 0x07 = PMP_R ||| PMP_W ||| PMP_X) := by
  have hu : toU64 s.iopmp_granule = s.iopmp_granule.toNat :=
    toU64_of_nonneg _ (le_of_lt hG) (lt_trans hG31 (by norm_num))
  have hcfg : (set_iopmp_napot hw base range slot s).1.cfg
      = (PMP_W ||| PMP_R ||| PMP_X) |||
        (if range > s.iopmp_granule.toNat then PMP_A_NAPOT else PMP_A_NA4) := by
    unfold set_iopmp_napot set_iopmp_napot_access
    rw [set_iopmp_fst, hu]
  rw [hcfg]
  constructor
  · intro hle
    have hn : ¬ range > s.iopmp_granule.toNat := by omega
    rw [if_neg hn]
    decide
  · intro hlt
    have hn : range > s.iopmp_granule.toNat := by omega
    rw [if_pos hn]
    decide

theorem set_iopmp_napot_mode_witness :
    (0 : Int) < (mkState (fun _ => 0) 0 0 4096).iopmp_granule ∧
    (mkState (fun _ => 0) 0 0 4096).iopmp_granule < 2 ^ 31 ∧
    (set_iopmp_napot plain 0x80000000 4096 2 (mkState (fun _ => 0) 0 0 4096)).1.cfg = 0x17 ∧
    (set_iopmp_napot plain 0x80000000 8192 2 (mkState (fun _ => 0) 0 0 4096)).1.cfg = 0x1F :=
  ⟨by decide, by decide,
    ((set_iopmp_napot_mode plain (mkState (fun _ => 0) 0 0 4096) 0x80000000 4096 2
      (by decide) (by decide)).1 (by decide)).1,
    ((set_iopmp_napot_mode plain (mkState (fun _ => 0) 0 0 4096) 0x80000000 8192 2
      (by decide) (by decide)).2 (by decide)).1⟩

/-- C6: for a region of size `2^k`, `3 <= k <= 63`, at a base that is a multiple of `2^k`,
`set_iopmp_napot_access` returns `a0 = (base >> 2) | (2^(k-3) - 1)`: exactly `k - 3` trailing
one bits followed by a zero bit, which the standard decoding rule maps back to the start
`base` and the size `2^k`; for every access and slot. -/
theorem set_iopmp_napot_access_encoding (hw : Device) (s : State) (k base access slot : Nat)
    (hk3 : 3 ≤ k) (hk63 : k ≤ 63) (hb : base < 2 ^ 64) (hdvd : 2 ^ k ∣ base) :
    (set_iopmp_napot_access hw base (2 ^ k) access slot s).1.a0
      = (base >>> 2) ||| (2 ^ (k - 3) - 1) ∧
    trailing_ones 64 (set_iopmp_napot_access hw base (2 ^ k) access slot s).1.a0 = k - 3 ∧
    (set_iopmp_napot_access hw base (2 ^ k) access slot s).1.a0.testBit (k - 3) = false ∧
    napot_decode_spec (set_iopmp_napot_access hw base (2 ^ k) access slot s).1.a0
      = (base, 2 ^ k) := by
  obtain ⟨j, rfl⟩ : ∃ j, k = j + 3 := ⟨k - 3, by omega⟩
  obtain ⟨m, rfl⟩ := hdvd
  have hj : j ≤ 60 := by omega
  have hlt : 2 ^ j - 1 < 2 ^ (j + 1) := by
    have h1 : 2 ^ (j + 1) = 2 * 2 ^ j := by ring
    have h2 : 1 ≤ 2 ^ j := Nat.one_le_two_pow
    omega
  have hto : trailing_ones 64 (2 ^ (j + 1) * m + (2 ^ j - 1)) = j :=
    trailing_ones_napot m j 64 (by omega)
  have hA : 2 ^ (j + 1) * m < 2 ^ 62 := by
    have e1 : 2 ^ (j + 3) * m = 4 * (2 ^ (j + 1) * m) := by ring
    rw [e1] at hb
    norm_num at hb ⊢
    omega
  rw [napot_a0_value hw s j m access slot hj hb]
  simp only [Nat.add_sub_cancel]
  refine ⟨?_, hto, ?_, ?_⟩
  · have e1 : (2 ^ (j + 3) * m) >>> 2 = 2 ^ (j + 1) * m := by
      rw [Nat.shiftRight_eq_div_pow]
      have e2 : 2 ^ (j + 3) * m = (2 ^ (j + 1) * m) * 2 ^ 2 := by ring
      rw [e2, Nat.mul_div_cancel _ (by norm_num)]
    rw [e1]
    exact Nat.mul_add_lt_is_or hlt m
  · rw [Nat.testBit_mul_pow_two_add m hlt]
    simp
  · unfold napot_decode_spec
    rw [hto]
    have hclr : (2 ^ (j + 1) * m + (2 ^ j - 1)) &&& not64 (2 ^ j - 1) = 2 ^ (j + 1) * m := by
      apply Nat.eq_of_testBit_eq
      intro i
      rw [Nat.testBit_and, testBit_not64, Nat.testBit_mul_pow_two_add m hlt,
        Nat.testBit_two_pow_sub_one, Nat.testBit_mul_pow_two]
      by_cases h1 : i < j
      · have h2 : i < j + 1 := by omega
        have h3 : ¬ i ≥ j + 1 := by omega
        simp [h1, h2, h3]
      · by_cases h2 : i < j + 1
        · have h3 : ¬ i ≥ j + 1 := by omega
          simp [h1, h2, h3]
        · have h3 : i ≥ j + 1 := by omega
          by_cases h4 : i < 64
          · simp [h1, h2, h3, h4]
          · have h5 : (2 ^ (j + 1) * m).testBit i = false :=
              Nat.testBit_lt_two_pow
                (lt_of_lt_of_le hA (Nat.pow_le_pow_right (by norm_num) (by omega)))
            rw [Nat.testBit_mul_pow_two] at h5
            simp [h1, h2, h3, h4] at h5 ⊢
            exact h5
    rw [hclr]
    have hsh : shl64 (2 ^ (j + 1) * m) PMP_SHIFT = 2 ^ (j + 3) * m := by
      unfold shl64 PMP_SHIFT
      rw [Nat.shiftLeft_eq]
      have e2 : 2 ^ (j + 1) * m * 2 ^ (2 % 64) = 2 ^ (j + 3) * m := by
        norm_num
        ring
      rw [e2, Nat.mod_eq_of_lt hb]
    rw [hsh]

theorem set_iopmp_napot_access_encoding_witness :
    3 ≤ 12 ∧ 12 ≤ 63 ∧ 0x80003000 < 2 ^ 64 ∧ 2 ^ 12 ∣ 0x80003000 ∧
    (set_iopmp_napot_access plain 0x80003000 (2 ^ 12) 0x03 5
        (mkState (fun _ => 0) 0 0 4096)).1.a0 = (0x80003000 >>> 2) ||| (2 ^ (12 - 3) - 1) ∧
    napot_decode_spec (set_iopmp_napot_access plain 0x80003000 (2 ^ 12) 0x03 5
        (mkState (fun _ => 0) 0 0 4096)).1.a0 = (0x80003000, 2 ^ 12) :=
  ⟨by decide, by decide, by decide, by decide,
    (set_iopmp_napot_access_encoding plain (mkState (fun _ => 0) 0 0 4096) 12 0x80003000 0x03 5
      (by decide) (by decide) (by decide) (by decide)).1,
    (set_iopmp_napot_access_encoding plain (mkState (fun _ => 0) 0 0 4096) 12 0x80003000 0x03 5
      (by decide) (by decide) (by decide) (by decide)).2.2.2⟩

/-- C7 (the code departs from the claim): `set_iopmp_allow_all 4` on an all-zero register file
returns the descriptor `cfg = 0x1F`, `a0` all-ones, `slot = 4` and sets address register 4 to
all-ones, but the config lane of slot 4 reads `0` afterwards, not `0x1F`: the `int` mask
selects the lane of slot 0, and the config word is left at `0`. -/
theorem set_iopmp_allow_all_slot4_lane_not_written :
    (set_iopmp_allow_all plain 4 (mkState (fun _ => 0) 0 0 (-1))).1
      = ⟨0x1F, 0xFFFFFFFFFFFFFFFF, 4⟩ ∧
    addr_reg (set_iopmp_allow_all plain 4 (mkState (fun _ => 0) 0 0 (-1))).2 4
      = 0xFFFFFFFFFFFFFFFF ∧
    cfg_byte (set_iopmp_allow_all plain 4 (mkState (fun _ => 0) 0 0 (-1))).2 4 = 0 ∧
    cfg_word (set_iopmp_allow_all plain 4 (mkState (fun _ => 0) 0 0 (-1))).2 0 = 0 := by
  decide

/-- C8 (as stated, fails): a read-back with 29 trailing zero bits, `0x3FFFFFE0000000`, makes
the scan end at `g = 31`; `1UL << 31` does not fit the `int` cache, which then holds `-2^31`
and not `2^31`. -/
theorem detect_iopmp_granule_z29 :
    conforming 29 IOPMP_ADDR_BASE 0xffffffffffffffff = 0x3FFFFFE0000000 ∧
    (0x3FFFFFE0000000 : Nat) % 2 ^ 29 = 0 ∧ (0x3FFFFFE0000000 : Nat).testBit 29 = true ∧
    (detect_iopmp_granule wide_zero (conforming 29) (mkState (fun _ => 0) 0 0 (-1))).map
      (fun s => s.iopmp_granule) = some (-2147483648) ∧
    (detect_iopmp_granule wide_zero (conforming 29) (mkState (fun _ => 0) 0 0 (-1))).map
      (fun s => s.iopmp_granule) ≠ some (2 ^ (29 + 2)) := by
  decide

/-- C8 (amended): when the read-back of address register 0 has `z` trailing zero bits and
`z <= 28`, `detect_iopmp_granule` returns and leaves exactly `2^(z+2)` in the granule cache. -/
theorem detect_iopmp_granule_value (wide : Nat → Nat) (hw : Device) (s : State) (z : Nat)
    (hz : ∀ t, t < z → (hw IOPMP_ADDR_BASE 0xffffffffffffffff).testBit t = false)
    (hz1 : (hw IOPMP_ADDR_BASE 0xffffffffffffffff).testBit z = true) (hz28 : z ≤ 28) :
    ∃ s', detect_iopmp_granule wide hw s = some s' ∧ s'.iopmp_granule = 2 ^ (z + 2) := by
  have hscan := scan_trailing_zeros _ z hz hz1 (by omega)
  refine ⟨_, detect_of_scan wide hw s (z + 2) hscan, ?_⟩
  exact granule_small wide z hz28

theorem detect_iopmp_granule_value_witness :
    (∀ t, t < 10 →
      ((fun _ v => v &&& 0xFFFFFFFFFFFFFC00 : Device) IOPMP_ADDR_BASE
        0xffffffffffffffff).testBit t = false) ∧
    ((fun _ v => v &&& 0xFFFFFFFFFFFFFC00 : Device) IOPMP_ADDR_BASE
      0xffffffffffffffff).testBit 10 = true ∧ 10 ≤ 28 ∧
    ∃ s', detect_iopmp_granule wide_zero (fun _ v => v &&& 0xFFFFFFFFFFFFFC00)
        (mkState (fun _ => 0) 0 0 (-1)) = some s' ∧
      s'.iopmp_granule = 2 ^ (10 + 2) :=
  ⟨by decide, by decide, by decide,
    detect_iopmp_granule_value wide_zero (fun _ v => v &&& 0xFFFFFFFFFFFFFC00)
      (mkState (fun _ => 0) 0 0 (-1)) 10 (by decide) (by decide) (by decide)⟩

/-- C9 (as stated, fails): on plain storage holding `0x1F` in config word 0 and `0` in address
register 0, after `detect_iopmp_granule` config word 0 reads `0` and address register 0 reads
all-ones: the probe values stay in the registers. -/
theorem detect_iopmp_granule_leaves_probe :
    cfg_word (mkState (fun _ => 0) 0x1F 0 (-1)) 0 = 0x1F ∧
    addr_reg (mkState (fun _ => 0) 0x1F 0 (-1)) 0 = 0 ∧
    (detect_iopmp_granule wide_zero plain (mkState (fun _ => 0) 0x1F 0 (-1))).map
      (fun s => cfg_word s 0) = some 0 ∧
    (detect_iopmp_granule wide_zero plain (mkState (fun _ => 0) 0x1F 0 (-1))).map
      (fun s => addr_reg s 0) = some 0xFFFFFFFFFFFFFFFF := by
  decide

/-- C9 (amended): on registers behaving as storage `detect_iopmp_granule` returns after exactly
two stores, `0` to config word 0 and all-ones to address register 0, and these two registers
keep the probe values; every other register (config word 1, address registers 1 to 15)
holds the value it held before the call. -/
theorem detect_iopmp_granule_frame (wide : Nat → Nat) (s : State) :
    ∃ s', detect_iopmp_granule wide plain s = some s' ∧
      s'.writes = s.writes ++ [(IOPMP_CFG_BASE, 0), (IOPMP_ADDR_BASE, 0xFFFFFFFFFFFFFFFF)] ∧
      cfg_word s' 0 = 0 ∧ addr_reg s' 0 = 0xFFFFFFFFFFFFFFFF ∧
      cfg_word s' 1 = cfg_word s 1 ∧
      (∀ i, 1 ≤ i → i < IOPMP_NUM_PMP → addr_reg s' i = addr_reg s i) ∧
      (∀ a, s'.regs a
        = if a = IOPMP_ADDR_BASE then 0xFFFFFFFFFFFFFFFF
          else if a = IOPMP_CFG_BASE then 0 else s.regs a) := by
  obtain ⟨g, hg, _⟩ := scan_spec (plain IOPMP_ADDR_BASE 0xffffffffffffffff)
  refine ⟨_, detect_of_scan wide plain s g hg, ?_, ?_, ?_, ?_, ?_, ?_⟩
  · simp [sbi_printf, write]
  · simp [cfg_word, read, sbi_printf, write, plain, IOPMP_CFG_BASE, IOPMP_ADDR_BASE, IOPMP_BASE]
  · simp [addr_reg, read, sbi_printf, write, plain]
  · simp [cfg_word, read, sbi_printf, write, IOPMP_CFG_BASE, IOPMP_ADDR_BASE, IOPMP_BASE]
  · intro i hi1 hi16
    have h1 : IOPMP_ADDR_BASE + 8 * i ≠ IOPMP_ADDR_BASE := by omega
    have h2 : IOPMP_ADDR_BASE + 8 * i ≠ IOPMP_CFG_BASE := by
      show IOPMP_BASE + 0x0 + 8 * i ≠ IOPMP_BASE + 0x80
      unfold IOPMP_NUM_PMP at hi16
      omega
    simp [addr_reg, read, sbi_printf, write, h1, h2]
  · intro a
    simp [sbi_printf, write, plain]

theorem detect_iopmp_granule_frame_witness :
    ∃ s', detect_iopmp_granule wide_zero plain (mkState (fun i => 0x1000 * i) 0x1F 0x17 (-1)) = some s' ∧
      cfg_word s' 0 = 0 ∧ addr_reg s' 0 = 0xFFFFFFFFFFFFFFFF ∧ cfg_word s' 1 = 0x17 ∧
      addr_reg s' 3 = 0x3000 := by
  obtain ⟨s', h1, _, h3, h4, h5, h6, _⟩ :=
    detect_iopmp_granule_frame wide_zero (mkState (fun i => 0x1000 * i) 0x1F 0x17 (-1))
  refine ⟨s', h1, h3, h4, ?_, ?_⟩
  · rw [h5]
    decide
  · rw [h6 3 (by decide) (by decide)]
    decide

set_option maxRecDepth 100000 in
/-- C10 (as stated, fails): on a unit whose address register 0 reads back with 29 trailing zero
bits, the first `init_iopmp` started from the sentinel `-1` leaves `-2^31` in the cache, a
negative value, and the next `init_iopmp` runs the detection again: the granularity line is
printed twice and config word 0 is probed twice. -/
theorem init_iopmp_detects_again :
    (init_iopmp wide_zero (conforming 29) (mkState (fun _ => 0) 0 0 (-1))).map
      (fun s => s.iopmp_granule) = some (-2147483648) ∧
    (init_iopmp wide_zero (conforming 29) (mkState (fun _ => 0) 0 0 (-1))).map
      (fun s => s.console.count (Diag.granularity (-2147483648))) = some 1 ∧
    ((init_iopmp wide_zero (conforming 29) (mkState (fun _ => 0) 0 0 (-1))).bind
      (init_iopmp wide_zero (conforming 29))).map
      (fun s => s.console.count (Diag.granularity (-2147483648))) = some 2 ∧
    ((init_iopmp wide_zero (conforming 29) (mkState (fun _ => 0) 0 0 (-1))).bind
      (init_iopmp wide_zero (conforming 29))).map
      (fun s => s.writes.count (IOPMP_CFG_BASE, 0)) = some 4 := by
  decide

/-- C10 (amended): when the read-back of address register 0 has `z` trailing zero bits, with
`z <= 61` and `z` other than 29, `detect_iopmp_granule` returns with a cache that is not
negative, a first `init_iopmp` started from a negative cache leaves that same value, and
every later `init_iopmp`, on any register contents, skips the detection (it is the self-test
alone, run from the state it was given) and leaves the cache unchanged. -/
theorem granule_detected_once (wide : Nat → Nat) (hw : Device) (s : State) (z : Nat)
    (hz : ∀ t, t < z → (hw IOPMP_ADDR_BASE 0xffffffffffffffff).testBit t = false)
    (hz1 : (hw IOPMP_ADDR_BASE 0xffffffffffffffff).testBit z = true)
    (hz61 : z ≤ 61) (hz29 : z ≠ 29) :
    ∃ s1, detect_iopmp_granule wide hw s = some s1 ∧ 0 ≤ s1.iopmp_granule ∧
      (s.iopmp_granule < 0 →
        ∃ s2, init_iopmp wide hw s = some s2 ∧ s2.iopmp_granule = s1.iopmp_granule) ∧
      (∀ (wide' : Nat → Nat) (hw' : Device) (s3 : State),
        s3.iopmp_granule = s1.iopmp_granule →
        init_iopmp wide' hw' s3
          = some (init_cfg_check hw' ((List.range IOPMP_NUM_PMP).foldl (init_addr_step hw') s3)) ∧
        ∃ s4, init_iopmp wide' hw' s3 = some s4 ∧ s4.iopmp_granule = s1.iopmp_granule ∧
          s4.writes = s3.writes ++
            ((List.range IOPMP_NUM_PMP).flatMap (fun i =>
                [(IOPMP_ADDR_BASE + i * 0x8, 0xffffffffffffffff),
                  (IOPMP_ADDR_BASE + i * 0x8, 0)]) ++
              [(IOPMP_CFG_BASE, 0xffffffffffffffff), (IOPMP_CFG_BASE + 0x8, 0xffffffffffffffff),
                (IOPMP_CFG_BASE, 0), (IOPMP_CFG_BASE + 0x8, 0)])) := by
  have hscan := scan_trailing_zeros _ z hz hz1 (by omega)
  have hnn : 0 ≤ toInt32 (shl_ul wide (z + 2)) :=
    granule_nonneg wide (z + 2) (by omega) (by omega) (by omega)
  obtain ⟨s1, hdet, hgr⟩ : ∃ s1, detect_iopmp_granule wide hw s = some s1 ∧
      s1.iopmp_granule = toInt32 (shl_ul wide (z + 2)) :=
    ⟨_, detect_of_scan wide hw s (z + 2) hscan, rfl⟩
  refine ⟨s1, hdet, by rw [hgr]; exact hnn, ?_, ?_⟩
  · intro hneg
    refine ⟨_, init_iopmp_of_neg wide hw s s1 hneg hdet, ?_⟩
    rw [init_cfg_check_granule, init_addr_loop_granule]
  · intro wide' hw' s3 h3
    have hskip := init_iopmp_of_nonneg wide' hw' s3 (by rw [h3, hgr]; exact hnn)
    refine ⟨hskip, _, hskip, ?_, ?_⟩
    · rw [init_cfg_check_granule, init_addr_loop_granule]
      exact h3
    · rw [init_checks_eq]
      rfl

theorem granule_detected_once_witness :
    (∀ t, t < 10 → (conforming 10 IOPMP_ADDR_BASE 0xffffffffffffffff).testBit t = false) ∧
    (conforming 10 IOPMP_ADDR_BASE 0xffffffffffffffff).testBit 10 = true ∧
    10 ≤ 61 ∧ 10 ≠ 29 ∧
    ∃ s1, detect_iopmp_granule wide_zero (conforming 10) (mkState (fun _ => 0) 0 0 (-1))
        = some s1 ∧
      0 ≤ s1.iopmp_granule := by
  obtain ⟨s1, h1, h2, _⟩ :=
    granule_detected_once wide_zero (conforming 10) (mkState (fun _ => 0) 0 0 (-1)) 10
      (by decide) (by decide) (by decide) (by decide)
  exact ⟨by decide, by decide, by decide, by decide, s1, h1, h2⟩

/-- C11 (as stated, fails): for read-back 0 the scan ends with `g = 66` and the function
returns, but the granule it stores is the outcome of `1UL << 66`: `4` in a build that takes
the count modulo 64 and `0` in a build that folds the shift away. Either value is less than
the `4096` stored for a read-back with ten trailing zero bits, so it is not the maximum
granularity the detector reports, and the two builds do not agree on it. -/
theorem detect_iopmp_granule_readback_zero :
    scan 0 65 1 2 = some 66 ∧
    (detect_iopmp_granule wide_sll (fun a v => if a = IOPMP_ADDR_BASE then 0 else v)
      (mkState (fun _ => 0) 0 0 (-1))).map (fun s => s.iopmp_granule) = some 4 ∧
    (detect_iopmp_granule wide_zero (fun a v => if a = IOPMP_ADDR_BASE then 0 else v)
      (mkState (fun _ => 0) 0 0 (-1))).map (fun s => s.iopmp_granule) = some 0 ∧
    (detect_iopmp_granule wide_sll (conforming 10) (mkState (fun _ => 0) 0 0 (-1))).map
      (fun s => s.iopmp_granule) = some 4096 ∧
    (detect_iopmp_granule wide_zero (conforming 10) (mkState (fun _ => 0) 0 0 (-1))).map
      (fun s => s.iopmp_granule) = some 4096 := by
  decide

/-- C11 (amended): for every read-back the bit scan leaves its loop within 64 rounds (65 tests
of the loop condition) with `g = 2 +` the number of trailing zero bits among the 64, so
`2 <= g <= 66`, and `g = 66` for read-back 0; `detect_iopmp_granule` then returns, for every
device, state and build, with the conversion of `1UL << g` to `int` in the cache. -/
theorem detect_iopmp_granule_terminates (wide : Nat → Nat) (hw : Device) (s : State) :
    scan (hw IOPMP_ADDR_BASE 0xffffffffffffffff) 65 1 2
      = some (2 + trailing_zeros 64 (hw IOPMP_ADDR_BASE 0xffffffffffffffff)) ∧
    2 ≤ 2 + trailing_zeros 64 (hw IOPMP_ADDR_BASE 0xffffffffffffffff) ∧
    2 + trailing_zeros 64 (hw IOPMP_ADDR_BASE 0xffffffffffffffff) ≤ 66 ∧
    scan 0 65 1 2 = some 66 ∧
    ∃ s', detect_iopmp_granule wide hw s = some s' ∧
      s'.iopmp_granule
        = toInt32 (shl_ul wide
            (2 + trailing_zeros 64 (hw IOPMP_ADDR_BASE 0xffffffffffffffff))) := by
  have hscan := scan_eq_trailing_zeros (hw IOPMP_ADDR_BASE 0xffffffffffffffff)
  have hb := (trailing_zeros_spec 64 (hw IOPMP_ADDR_BASE 0xffffffffffffffff)).1
  refine ⟨hscan, by omega, by omega, by decide, _, detect_of_scan wide hw s _ hscan, rfl⟩

/-- C12: `init_iopmp` returns for every device, initial state and cache value, and among the
stores it makes the last one to each of the 16 address registers and to each of the 2 config
words is a store of `0`; on registers that hold `0` once `0` is written (plain storage in
particular) all 16 address registers and both config words read `0` after the call. -/
theorem init_iopmp_clears (wide : Nat → Nat) (hw : Device) (s : State) :
    ∃ s' ws, init_iopmp wide hw s = some s' ∧ s'.writes = s.writes ++ ws ∧
      (∀ i, i < IOPMP_NUM_PMP → last_write (IOPMP_ADDR_BASE + 8 * i) ws = some 0) ∧
      (∀ w, w < 2 → last_write (IOPMP_CFG_BASE + 8 * w) ws = some 0) ∧
      ((∀ a, hw a 0 = 0) →
        (∀ i, i < IOPMP_NUM_PMP → addr_reg s' i = 0) ∧ cfg_word s' 0 = 0 ∧ cfg_word s' 1 = 0) := by
  obtain ⟨s1, pre, hinit, hpre⟩ := init_iopmp_shape wide hw s
  rw [init_checks_eq] at hinit
  refine ⟨_, pre ++ (addr_loop_writes (List.range IOPMP_NUM_PMP) ++ cfg_check_writes),
    hinit, ?_, ?_, ?_, ?_⟩
  · simp only [hpre, List.append_assoc]
  · intro i hi
    apply last_write_append
    unfold IOPMP_NUM_PMP at hi
    interval_cases i <;> decide
  · intro w hw2
    apply last_write_append
    interval_cases w <;> decide
  · intro h0
    have hc1 : IOPMP_CFG_BASE + 8 * 1 = IOPMP_CFG_BASE + 0x8 := rfl
    have hc0 : IOPMP_CFG_BASE + 8 * 0 = IOPMP_CFG_BASE := rfl
    have hne : IOPMP_CFG_BASE ≠ IOPMP_CFG_BASE + 0x8 := by omega
    refine ⟨?_, ?_, ?_⟩
    · intro i hi
      have hmem : IOPMP_ADDR_BASE + 8 * i
          ∈ (List.range IOPMP_NUM_PMP).map (fun i => IOPMP_ADDR_BASE + i * 0x8) :=
        List.mem_map.mpr ⟨i, List.mem_range.mpr hi, by omega⟩
      unfold IOPMP_NUM_PMP at hi
      have h1 : IOPMP_ADDR_BASE + 8 * i ≠ IOPMP_CFG_BASE + 0x8 := by
        show IOPMP_BASE + 0x0 + 8 * i ≠ IOPMP_BASE + 0x80 + 0x8
        omega
      have h2 : IOPMP_ADDR_BASE + 8 * i ≠ IOPMP_CFG_BASE := by
        show IOPMP_BASE + 0x0 + 8 * i ≠ IOPMP_BASE + 0x80
        omega
      simp only [addr_reg, read, if_neg h1, if_neg h2, if_pos hmem, h0]
    · simp only [cfg_word, read, hc0, if_neg hne, if_true, h0]
    · simp only [cfg_word, read, hc1, if_true, h0]

theorem init_iopmp_clears_witness :
    ∃ s' ws, init_iopmp wide_zero plain (mkState (fun i => 0x1000 * i) 0x1F 0x17 4096) = some s' ∧
      s'.writes = (mkState (fun i => 0x1000 * i) 0x1F 0x17 4096).writes ++ ws ∧
      last_write (IOPMP_ADDR_BASE + 8 * 3) ws = some 0 ∧
      last_write (IOPMP_CFG_BASE + 8 * 1) ws = some 0 ∧
      addr_reg s' 3 = 0 ∧ cfg_word s' 0 = 0 ∧ cfg_word s' 1 = 0 := by
  obtain ⟨s', ws, h1, h2, h3, h4, h5⟩ :=
    init_iopmp_clears wide_zero plain (mkState (fun i => 0x1000 * i) 0x1F 0x17 4096)
  have h6 := h5 (fun _ => rfl)
  exact ⟨s', ws, h1, h2, h3 3 (by decide), h4 1 (by decide), h6.1 3 (by decide), h6.2.1,
    h6.2.2⟩

set_option maxRecDepth 100000 in
/-- C13 (as stated, fails): with the cache at `4096 = 2^12` the expected read-back is
`0x3FFFFFFFFFFC00`, not the 64-bit all-ones pattern with its low 10 bits cleared; a register
reading back `0xFFFFFFFFFFFFFC00` is reported as failed and one reading back
`0x3FFFFFFFFFFC00` as passed. -/
theorem init_iopmp_expects_54_bits :
    expected_readback 4096 = 0x3FFFFFFFFFFC00 ∧
    0xFFFFFFFFFFFFFFFF &&& not64 (2 ^ (12 - 2) - 1) = 0xFFFFFFFFFFFFFC00 ∧
    (init_iopmp wide_zero (fun _ v => v &&& 0xFFFFFFFFFFFFFC00) (mkState (fun _ => 0) 0 0 4096)).map
      (fun s => s.console.take 2)
      = some [Diag.addr_failed 0 0xFFFFFFFFFFFFFC00, Diag.addr_failed 1 0xFFFFFFFFFFFFFC00] ∧
    (init_iopmp wide_zero (conforming 10) (mkState (fun _ => 0) 0 0 4096)).map
      (fun s => s.console.take 2) = some [Diag.addr_succeeded 0, Diag.addr_succeeded 1] := by
  decide

/-- C13 (amended): for a cache value `2^g`, `2 <= g <= 30`, the value `init_iopmp` expects each
address register to read back is `0x3FFFFFFFFFFFFF & ~(2^(g-2) - 1)`, the 54-bit all-ones
pattern with its low `g - 2` bits cleared, and the line printed for address register `i` is
the success line exactly when the read-back equals this value (the failure line, with the
read-back, otherwise). -/
theorem init_iopmp_expected_readback (wide : Nat → Nat) (hw : Device) (s : State) (g : Nat) (h2 : 2 ≤ g)
    (h30 : g ≤ 30) (hG : s.iopmp_granule = 2 ^ g) :
    expected_readback s.iopmp_granule = 0x3FFFFFFFFFFFFF &&& not64 (2 ^ (g - 2) - 1) ∧
    ∃ s', init_iopmp wide hw s = some s' ∧
      s'.console = s.console ++
        ((List.range IOPMP_NUM_PMP).map (fun i =>
            if hw (IOPMP_ADDR_BASE + i * 0x8) 0xffffffffffffffff
                = 0x3FFFFFFFFFFFFF &&& not64 (2 ^ (g - 2) - 1) then Diag.addr_succeeded i
            else Diag.addr_failed i (hw (IOPMP_ADDR_BASE + i * 0x8) 0xffffffffffffffff)) ++
          [cfg_line hw]) := by
  have he : expected_readback s.iopmp_granule = 0x3FFFFFFFFFFFFF &&& not64 (2 ^ (g - 2) - 1) := by
    rw [hG]
    exact expected_readback_pow g h2 h30
  have hnn : 0 ≤ s.iopmp_granule := by
    rw [hG]
    positivity
  refine ⟨he, _, init_iopmp_of_nonneg wide hw s hnn, ?_⟩
  rw [init_checks_eq]
  show s.console ++ _ = s.console ++ _
  congr 2
  apply List.map_congr_left
  intro i _
  unfold addr_line
  rw [he]
  by_cases h1 : hw (IOPMP_ADDR_BASE + i * 0x8) 0xffffffffffffffff
      = 0x3FFFFFFFFFFFFF &&& not64 (2 ^ (g - 2) - 1)
  · rw [if_neg (not_not.mpr h1), if_pos h1]
  · rw [if_pos h1, if_neg h1]

theorem init_iopmp_expected_readback_witness :
    2 ≤ 12 ∧ 12 ≤ 30 ∧ (mkState (fun _ => 0) 0 0 4096).iopmp_granule = 2 ^ 12 ∧
    expected_readback (mkState (fun _ => 0) 0 0 4096).iopmp_granule
      = 0x3FFFFFFFFFFFFF &&& not64 (2 ^ (12 - 2) - 1) :=
  ⟨by decide, by decide, by decide,
    (init_iopmp_expected_readback wide_zero plain (mkState (fun _ => 0) 0 0 4096) 12 (by decide)
      (by decide) (by decide)).1⟩

/-- C14: the descriptor `set_iopmp` returns has the `cfg`, `a0` and `slot` of its argument, for
every device, state and descriptor; it does not depend on the state or on whether the slot was
accepted. -/
theorem set_iopmp_returns_input (hw : Device) (s : State) (p : iopmpcfg_t) :
    (set_iopmp hw p s).1 = p ∧
    (set_iopmp hw p s).1.cfg = p.cfg ∧ (set_iopmp hw p s).1.a0 = p.a0 ∧
    (set_iopmp hw p s).1.slot = p.slot ∧
    ∀ (hw' : Device) (s' : State), (set_iopmp hw' p s').1 = (set_iopmp hw p s).1 := by
  have h := set_iopmp_fst hw p s
  refine ⟨h, by rw [h], by rw [h], by rw [h], ?_⟩
  intro hw' s'
  rw [h, set_iopmp_fst]

/-- C15 (the code departs from the claim): `set_iopmp` of `cfg = 0x1F`, `a0 = 0x1000` in slot 3
on a register file whose config word 0 is all-ones makes three stores in the order config
word, address register, config word, but the first stores `0x0000000000FFFFFF` (lanes 3 to 7
cleared, not only lane 3) and the last `0x000000001FFFFFFF`. In slot 4 the first store is
`0xFFFFFFFFFFFFFF00`: the lane of slot 4 still reads `0xff` when the address register is
written. -/
theorem set_iopmp_first_store_clears_too_much :
    (set_iopmp plain ⟨0x1F, 0x1000, 3⟩ (mkState (fun _ => 0) 0xFFFFFFFFFFFFFFFF 0 (-1))).2.writes
      = [(IOPMP_CFG_BASE, 0x0000000000FFFFFF), (IOPMP_ADDR_BASE + 8 * 3, 0x1000),
          (IOPMP_CFG_BASE, 0x000000001FFFFFFF)] ∧
    (0xFFFFFFFFFFFFFFFF : Nat) &&& not64 (0xff <<< (8 * 3)) = 0xFFFFFFFF00FFFFFF ∧
    (set_iopmp plain ⟨0x1F, 0x1000, 4⟩ (mkState (fun _ => 0) 0xFFFFFFFFFFFFFFFF 0 (-1))).2.writes
      = [(IOPMP_CFG_BASE, 0xFFFFFFFFFFFFFF00), (IOPMP_ADDR_BASE + 8 * 4, 0x1000),
          (IOPMP_CFG_BASE, 0xFFFFFFFFFFFFFF00)] ∧
    lane 0xFFFFFFFFFFFFFF00 4 = 0xff := by
  decide

/-- C16: while the cache holds the sentinel `-1`, `set_iopmp_napot_access` returns a `cfg` of
mode NA4, never NAPOT, for every base, every 64-bit range, every access within R|W|X and every
slot; the cache is still `-1` after the call and nothing is printed (no detection runs). -/
theorem set_iopmp_napot_access_sentinel (hw : Device) (s : State)
    (base range access slot : Nat) (hG : s.iopmp_granule = -1) (hr : range < 2 ^ 64)
    (ha : access ≤ PMP_R ||| PMP_W ||| PMP_X) :
    (set_iopmp_napot_access hw base range access slot s).1.cfg = access ||| PMP_A_NA4 ∧
    (set_iopmp_napot_access hw base range access slot s).1.cfg &&& 0x18 = PMP_A_NA4 ∧
    (set_iopmp_napot_access hw base range access slot s).1.cfg &&& 0x18 ≠ PMP_A_NAPOT ∧
    (set_iopmp_napot_access hw base range access slot s).2.iopmp_granule = -1 ∧
    (set_iopmp_napot_access hw base range access slot s).2.console = s.console := by
  have hu : toU64 s.iopmp_granule = 2 ^ 64 - 1 := by
    rw [hG]
    decide
  have hn : ¬ range > toU64 s.iopmp_granule := by
    rw [hu]
    omega
  have hcfg : (set_iopmp_napot_access hw base range access slot s).1.cfg
      = access ||| PMP_A_NA4 := by
    unfold set_iopmp_napot_access
    rw [set_iopmp_fst]
    simp only [if_neg hn]
  have ha7 : access ≤ 7 := ha
  have hmode : (access ||| PMP_A_NA4) &&& 0x18 = PMP_A_NA4 := by
    interval_cases access <;> decide
  refine ⟨hcfg, by rw [hcfg, hmode], ?_, ?_, ?_⟩
  · rw [hcfg, hmode]
    decide
  · unfold set_iopmp_napot_access
    rw [set_iopmp_granule]
    exact hG
  · unfold set_iopmp_napot_access
    rw [set_iopmp_console]

theorem set_iopmp_napot_access_sentinel_witness :
    (mkState (fun _ => 0) 0 0 (-1)).iopmp_granule = -1 ∧ 0xFFFFFFFFFFFFFFFF < 2 ^ 64 ∧
    PMP_R ||| PMP_W ≤ PMP_R ||| PMP_W ||| PMP_X ∧
    (set_iopmp_napot_access plain 0x80000000 0xFFFFFFFFFFFFFFFF (PMP_R ||| PMP_W) 2
      (mkState (fun _ => 0) 0 0 (-1))).1.cfg = (PMP_R ||| PMP_W) ||| PMP_A_NA4 ∧
    (set_iopmp_napot_access plain 0x80000000 0xFFFFFFFFFFFFFFFF (PMP_R ||| PMP_W) 2
      (mkState (fun _ => 0) 0 0 (-1))).2.iopmp_granule = -1 :=
  ⟨by decide, by decide, by decide,
    (set_iopmp_napot_access_sentinel plain (mkState (fun _ => 0) 0 0 (-1)) 0x80000000
      0xFFFFFFFFFFFFFFFF (PMP_R ||| PMP_W) 2 (by decide) (by decide) (by decide)).1,
    (set_iopmp_napot_access_sentinel plain (mkState (fun _ => 0) 0 0 (-1)) 0x80000000
      0xFFFFFFFFFFFFFFFF (PMP_R ||| PMP_W) 2 (by decide) (by decide) (by decide)).2.2.2.1⟩

/-- C17: on a conforming unit of parameter `k`, `0 <= k <= 28` (address registers store the
written value restricted to 54 bits with the low `k` bits cleared, config words store what is
written), `init_iopmp` started from the sentinel `-1` returns with the granule `2^(k+2)` in
the cache. Its stores are the probe of the detection, then all-ones and `0` to each of the 16
address registers in turn, then all-ones and `0` to the config words; it prints the
granularity, 16 address successes in order and the config success, and leaves all registers
at `0`. The checks are comparisons with what the registers read back: with this cache, on any
device, the line for address register `i` is the success line exactly when the register reads
back what the conforming unit's register reads back, and the config line is the success line
exactly when both config words read back all-ones. -/
theorem init_iopmp_conforming (wide : Nat → Nat) (k : Nat) (s : State) (hk : k ≤ 28)
    (hG : s.iopmp_granule = -1) :
    ∃ s', init_iopmp wide (conforming k) s = some s' ∧ s'.iopmp_granule = 2 ^ (k + 2) ∧
      s'.writes = s.writes ++
        ([(IOPMP_CFG_BASE, 0), (IOPMP_ADDR_BASE, 0xffffffffffffffff)] ++
          (List.range IOPMP_NUM_PMP).flatMap (fun i =>
            [(IOPMP_ADDR_BASE + i * 0x8, 0xffffffffffffffff), (IOPMP_ADDR_BASE + i * 0x8, 0)]) ++
          [(IOPMP_CFG_BASE, 0xffffffffffffffff), (IOPMP_CFG_BASE + 0x8, 0xffffffffffffffff),
            (IOPMP_CFG_BASE, 0), (IOPMP_CFG_BASE + 0x8, 0)]) ∧
      s'.console = s.console ++ [Diag.granularity (2 ^ (k + 2))] ++
        (List.range IOPMP_NUM_PMP).map Diag.addr_succeeded ++ [Diag.cfg_succeeded] ∧
      (∀ i, i < IOPMP_NUM_PMP → addr_reg s' i = 0) ∧ cfg_word s' 0 = 0 ∧ cfg_word s' 1 = 0 ∧
      (∀ (hw : Device) (t : State), t.iopmp_granule = s'.iopmp_granule →
        ∃ t', init_iopmp wide hw t = some t' ∧
          t'.console = t.console ++
            ((List.range IOPMP_NUM_PMP).map (fun i =>
                if hw (IOPMP_ADDR_BASE + i * 0x8) 0xffffffffffffffff
                    = conforming k (IOPMP_ADDR_BASE + i * 0x8) 0xffffffffffffffff then
                  Diag.addr_succeeded i
                else Diag.addr_failed i (hw (IOPMP_ADDR_BASE + i * 0x8) 0xffffffffffffffff)) ++
              [if hw IOPMP_CFG_BASE 0xffffffffffffffff = 0xffffffffffffffff ∧
                  hw (IOPMP_CFG_BASE + 0x8) 0xffffffffffffffff = 0xffffffffffffffff then
                Diag.cfg_succeeded
              else Diag.cfg_failed])) := by
  have hneg : s.iopmp_granule < 0 := by
    rw [hG]
    decide
  have hgr : toInt32 (shl_ul wide (k + 2)) = 2 ^ (k + 2) := granule_small wide k hk
  have hd := detect_of_scan wide (conforming k) s (k + 2) (scan_conforming k hk)
  rw [hgr] at hd
  have hexp : expected_readback (2 ^ (k + 2)) = 0x3FFFFFFFFFFFFF &&& not64 (2 ^ k - 1) := by
    have h := expected_readback_pow (k + 2) (by omega) (by omega)
    simpa using h
  obtain ⟨s1, hd1, hs1g, hs1w, hs1c⟩ : ∃ s1, detect_iopmp_granule wide (conforming k) s = some s1 ∧
      s1.iopmp_granule = 2 ^ (k + 2) ∧
      s1.writes = s.writes ++ [(IOPMP_CFG_BASE, 0), (IOPMP_ADDR_BASE, 0xffffffffffffffff)] ∧
      s1.console = s.console ++ [Diag.granularity (2 ^ (k + 2))] :=
    ⟨_, hd, rfl, by simp [sbi_printf, write], rfl⟩
  have hcons := init_checks_console (conforming k) s1 (0x3FFFFFFFFFFFFF &&& not64 (2 ^ k - 1))
    (by rw [hs1g]; exact hexp)
  have hregs := init_checks_regs_zero (conforming k) s1 (conforming_zero k)
  refine ⟨_, init_iopmp_of_neg wide (conforming k) s s1 hneg hd1, ?_, ?_, ?_, hregs.1,
    hregs.2.1, hregs.2.2, ?_⟩
  · rw [init_cfg_check_granule, init_addr_loop_granule]
    exact hs1g
  · rw [init_checks_eq]
    show s1.writes ++ _ = _
    rw [hs1w]
    simp only [List.append_assoc]
    rfl
  · rw [hcons, hs1c]
    have hmap : (List.range IOPMP_NUM_PMP).map (fun i =>
        if conforming k (IOPMP_ADDR_BASE + i * 0x8) 0xffffffffffffffff
            = 0x3FFFFFFFFFFFFF &&& not64 (2 ^ k - 1) then Diag.addr_succeeded i
        else Diag.addr_failed i (conforming k (IOPMP_ADDR_BASE + i * 0x8) 0xffffffffffffffff))
        = (List.range IOPMP_NUM_PMP).map Diag.addr_succeeded := by
      apply List.map_congr_left
      intro i hi
      rw [if_pos (conforming_addr k i (List.mem_range.mp hi))]
    rw [hmap, conforming_cfg k _ _ (le_refl _), conforming_cfg k _ _ (by omega),
      if_pos ⟨rfl, rfl⟩]
    simp only [List.append_assoc]
  · intro hw t ht
    have htg : t.iopmp_granule = 2 ^ (k + 2) := by
      rw [ht, init_cfg_check_granule, init_addr_loop_granule]
      exact hs1g
    have hnn : 0 ≤ t.iopmp_granule := by
      rw [htg]
      positivity
    refine ⟨_, init_iopmp_of_nonneg wide hw t hnn, ?_⟩
    rw [init_checks_console hw t (0x3FFFFFFFFFFFFF &&& not64 (2 ^ k - 1))
      (by rw [htg]; exact hexp)]
    have hmap : (List.range IOPMP_NUM_PMP).map (fun i =>
        if hw (IOPMP_ADDR_BASE + i * 0x8) 0xffffffffffffffff
            = conforming k (IOPMP_ADDR_BASE + i * 0x8) 0xffffffffffffffff then
          Diag.addr_succeeded i
        else Diag.addr_failed i (hw (IOPMP_ADDR_BASE + i * 0x8) 0xffffffffffffffff))
        = (List.range IOPMP_NUM_PMP).map (fun i =>
        if hw (IOPMP_ADDR_BASE + i * 0x8) 0xffffffffffffffff
            = 0x3FFFFFFFFFFFFF &&& not64 (2 ^ k - 1) then
          Diag.addr_succeeded i
        else Diag.addr_failed i (hw (IOPMP_ADDR_BASE + i * 0x8) 0xffffffffffffffff)) := by
      apply List.map_congr_left
      intro i hi
      rw [conforming_addr k i (List.mem_range.mp hi)]
    rw [hmap]

theorem init_iopmp_conforming_witness :
    10 ≤ 28 ∧ (mkState (fun i => 0x1000 * i) 0x1F 0x17 (-1)).iopmp_granule = -1 ∧
    ∃ s', init_iopmp wide_zero (conforming 10) (mkState (fun i => 0x1000 * i) 0x1F 0x17 (-1))
        = some s' ∧
      s'.iopmp_granule = 2 ^ (10 + 2) ∧
      s'.console = [Diag.granularity (2 ^ (10 + 2))] ++
        (List.range IOPMP_NUM_PMP).map Diag.addr_succeeded ++ [Diag.cfg_succeeded] ∧
      addr_reg s' 3 = 0 ∧ cfg_word s' 0 = 0 ∧ cfg_word s' 1 = 0 := by
  obtain ⟨s', h1, h2, _, h4, h5, h6, h7, _⟩ :=
    init_iopmp_conforming wide_zero 10 (mkState (fun i => 0x1000 * i) 0x1F 0x17 (-1))
      (by decide) (by decide)
  exact ⟨by decide, by decide, s', h1, h2, by simpa [mkState] using h4, h5 3 (by decide), h6,
    h7⟩

end Iopmp
